import Mathlib

/-!
Verification development for the timeout-scheduler engine
(class TimeoutScheduler, src/index.ts).

The engine is embedded as an explicit state machine.  Task callbacks are
deep-embedded: a callback is a list of commands (it may cancel other
tasks by id) together with the wall-clock time its execution consumes,
so that an Execution Cycle's time-budget checks and re-entrant
cancellation are both expressible.  The host is modelled by a registry
of armed native timers (window.setTimeout registrations), a
frame-pacing handle, the document's hidden flag and a monotonic clock;
external stimuli (timer firings, rAF ticks, visibility changes,
cooperative-dispatch completions) are a list of operations folded over
the state.  Every registry mutation, count publication, callback
invocation and cancellation is recorded in an event trace.
-/

namespace TSched

/-- Task priority, mirroring type TaskPriority in the source. -/
inductive TaskPriority where
  | userVisible
  | background
deriving DecidableEq, Repr

/-- Scheduling strategy, mirroring type SchedulingStrategy. -/
inductive Strategy where
  | throughput
  | responsiveness
deriving DecidableEq, Repr

/-- The scheduling mode, mirroring currentSchedulingMode's union type. -/
inductive Mode where
  | rAF
  | postTask
  | timeout
  | idle
deriving DecidableEq, Repr

/-- A command a deep-embedded callback may perform: re-enter the public
contract by cancelling a task by id (cancelTask), tearing the engine
down (restoreTimeouts), destroying it (destroy), or do nothing. -/
inductive Cmd where
  | cancelC (id : Nat)
  | nopC
  | restoreC
  | destroyC
deriving DecidableEq, Repr

/-- A deep-embedded callback: the commands it runs and the wall-clock
milliseconds its execution consumes. -/
structure Cb where
  prog : List Cmd
  cost : Nat
deriving DecidableEq, Repr

/-- Internal representation of a scheduled task, mirroring interface
ScheduledTask.  postTaskAborted models postTaskController: none means
no controller, some b means a controller whose signal.aborted = b. -/
structure ScheduledTask where
  id : Nat
  callback : Cb
  executeAt : Int
  args : List Int
  priority : TaskPriority
  batching : Bool
  nativeTimerId : Option Nat
  postTaskAborted : Option Bool
deriving DecidableEq, Repr

/-- What an armed native timer does when the host fires it:
the wrapper arming a non-batched task (calls executeTaskImmediately),
a callback re-registered directly by restoreTimeouts (with the task id
kept as ghost data for the trace), or the background ticker
(calls processRafQueue). -/
inductive NativePayload where
  | execTask (taskId : Nat)
  | direct (taskId : Nat) (cb : Cb) (args : List Int)
  | tick
deriving DecidableEq, Repr

/-- An armed native setTimeout registration on the host. -/
structure NativeTimer where
  timerId : Nat
  delay : Int
  armedAt : Int
  payload : NativePayload
deriving DecidableEq, Repr

/-- Observable events, in chronological order: registry insertion and
removal (with the registry size just after the mutation), the registry
clear in restoreTimeouts, a pending-count publication, a callback
invocation starting, and a successful cancelTask call. -/
inductive Event where
  | insertE (id : Nat) (size : Nat)
  | removeE (id : Nat) (size : Nat)
  | clearE
  | publishE (n : Nat)
  | invokeE (id : Nat)
  | cancelledE (id : Nat)
deriving DecidableEq, Repr

/-- Constructor configuration before default resolution, mirroring
interface SchedulerConfig (all fields optional). -/
structure SchedulerConfigInput where
  primaryStrategy : Option Strategy
  loggingEnabled : Option Bool
  dynamicBudgetEnabled : Option Bool
  frameTimeBudgetMs : Option Int
  initialTasksPerFrame : Option Nat
  maxTasksPerFrame : Option Nat
  backgroundTickInterval : Option Int
deriving DecidableEq, Repr

/-- Configuration after the constructor applied its defaults. -/
structure Config where
  primaryStrategy : Strategy
  loggingEnabled : Bool
  dynamicBudgetEnabled : Bool
  frameTimeBudgetMs : Int
  initialTasksPerFrame : Nat
  maxTasksPerFrame : Nat
  backgroundTickInterval : Int
deriving DecidableEq, Repr

/-- Default resolution performed by the constructor (lines 156-162). -/
def resolveConfig (c : SchedulerConfigInput) : Config :=
  { primaryStrategy := c.primaryStrategy.getD Strategy.throughput
    loggingEnabled := c.loggingEnabled.getD false
    dynamicBudgetEnabled := c.dynamicBudgetEnabled.getD true
    frameTimeBudgetMs := c.frameTimeBudgetMs.getD 8
    initialTasksPerFrame := c.initialTasksPerFrame.getD 50
    maxTasksPerFrame := c.maxTasksPerFrame.getD 150
    backgroundTickInterval := c.backgroundTickInterval.getD 250 }

/-- The empty constructor argument (new TimeoutScheduler()). -/
def noConfig : SchedulerConfigInput :=
  ⟨none, none, none, none, none, none, none⟩

/-- The host capabilities inspected at construction. -/
structure HostCaps where
  hasWindow : Bool
  hasPerformance : Bool
  hasRAF : Bool
  postTaskSupported : Bool
  documentHidden : Bool
deriving DecidableEq, Repr

/-- A JavaScript number as it reaches the delay coercion: NaN (also the
result of Number(undefined) and of Number on non-numeric input) or a
finite value. -/
inductive JSNum where
  | nan
  | num (n : Int)
deriving DecidableEq, Repr

/-- Options passed to scheduleTask, mirroring interface TaskOptions. -/
structure TaskOptionsInput where
  delay : Option JSNum
  priority : Option TaskPriority
  batching : Option Bool
deriving DecidableEq, Repr

/-- The whole engine plus host state. -/
structure EngineState where
  cfg : Config
  isPostTaskSupported : Bool
  hidden : Bool
  isOverridden : Bool
  taskIdCounter : Nat
  taskQueue : List ScheduledTask
  currentSchedulingMode : Mode
  currentTasksPerFrame : Nat
  animationFrameId : Nat
  rafCounter : Nat
  backgroundTickerId : Option Nat
  nativeTimers : List NativeTimer
  nativeTimerCounter : Nat
  now : Int
  published : List Nat
  events : List Event
  completed : Bool
deriving DecidableEq, Repr

/-- The ids currently in the task registry, in insertion order. -/
def queueIds (s : EngineState) : List Nat :=
  s.taskQueue.map (fun t => t.id)

/-- The most recently published pending count (the BehaviorSubject's
current value). -/
def lastPublished (s : EngineState) : Nat :=
  s.published.headD 0

/-- pendingTaskCountSubject.next(this.taskQueue.size). -/
def publishCount (s : EngineState) : EngineState :=
  { s with published := s.taskQueue.length :: s.published
           events := s.events ++ [Event.publishE s.taskQueue.length] }

/-- originalClearTimeout: remove an armed native timer from the host. -/
def clearNativeTimer (tid : Nat) (s : EngineState) : EngineState :=
  { s with nativeTimers := s.nativeTimers.filter (fun nt => nt.timerId ≠ tid) }

/-- taskQueue.get(id). -/
def findTask (id : Nat) (s : EngineState) : Option ScheduledTask :=
  s.taskQueue.find? (fun t => t.id = id)

/-- Registry removal without a publication (taskQueue.delete(id)); logs a
removeE event only when the id was actually present. -/
def deleteTask (id : Nat) (s : EngineState) : EngineState :=
  if s.taskQueue.any (fun t => t.id = id) then
    { s with taskQueue := s.taskQueue.filter (fun t => t.id ≠ id)
             events := s.events ++
               [Event.removeE id (s.taskQueue.filter (fun t => t.id ≠ id)).length] }
  else s

/-- postTaskController.abort() on one task, if it has a controller. -/
def setAborted (t : ScheduledTask) : ScheduledTask :=
  match t.postTaskAborted with
  | some _ => { t with postTaskAborted := some true }
  | none => t

/-- cancelTask (lines 235-250): clear a dedicated native timer, abort a
postTask controller, remove the task, republish the count.  Unknown ids
are a no-op. -/
def cancelTask (id : Nat) (s : EngineState) : EngineState :=
  match findTask id s with
  | none => s
  | some t =>
    let s1 :=
      match t.nativeTimerId with
      | some tid => clearNativeTimer tid s
      | none => s
    let s2 := { s1 with
      taskQueue := s1.taskQueue.map (fun u => if u.id = id then setAborted u else u)
      events := s1.events ++ [Event.cancelledE id] }
    publishCount (deleteTask id s2)

/-- stopAllTickers (lines 406-424): cancel the rAF registration and the
background ticker, abort all live postTask controllers, go idle. -/
def stopAllTickers (s : EngineState) : EngineState :=
  let s1 :=
    match s.backgroundTickerId with
    | some tid => clearNativeTimer tid s
    | none => s
  let s2 := { s1 with animationFrameId := 0, backgroundTickerId := none }
  let s3 := { s2 with taskQueue := s2.taskQueue.map setAborted }
  { s3 with currentSchedulingMode := Mode.idle }

/-- The loop in restoreTimeouts clearing every non-batched task's
dedicated native timer (lines 293-295). -/
def clearTaskTimersList : List ScheduledTask → EngineState → EngineState
  | [], s => s
  | t :: ts, s =>
    clearTaskTimersList ts
      (match t.nativeTimerId with
       | some tid => clearNativeTimer tid s
       | none => s)

/-- The loop in restoreTimeouts re-registering every pending task on the
native setTimeout with its remaining delay (lines 304-308). -/
def rescheduleList (now : Int) : List ScheduledTask → EngineState → EngineState
  | [], s => s
  | t :: ts, s =>
    rescheduleList now ts
      { s with nativeTimerCounter := s.nativeTimerCounter + 1
               nativeTimers := s.nativeTimers ++
                 [⟨s.nativeTimerCounter, max 0 (t.executeAt - now), now,
                   NativePayload.direct t.id t.callback t.args⟩] }

/-- restoreTimeouts (lines 288-311). -/
def restoreTimeouts (s : EngineState) : EngineState :=
  if ¬ s.isOverridden then s
  else
    let s1 := stopAllTickers s
    let s2 := clearTaskTimersList s1.taskQueue s1
    let s3 := { s2 with isOverridden := false }
    let s4 := rescheduleList s3.now s3.taskQueue s3
    let s5 := { s4 with taskQueue := [], events := s4.events ++ [Event.clearE] }
    publishCount s5

/-- destroy (lines 316-322): restore, then complete the count channel. -/
def destroy (s : EngineState) : EngineState :=
  { restoreTimeouts s with completed := true }

/-- Run one callback command. -/
def runCmd (c : Cmd) (s : EngineState) : EngineState :=
  match c with
  | Cmd.cancelC i => cancelTask i s
  | Cmd.nopC => s
  | Cmd.restoreC => restoreTimeouts s
  | Cmd.destroyC => destroy s

/-- Run a callback's command list. -/
def runCmds : List Cmd → EngineState → EngineState
  | [], s => s
  | c :: cs, s => runCmds cs (runCmd c s)

/-- Invoke a task's callback: record the invocation, run its commands,
and advance the clock by its execution cost. -/
def invokeTask (t : ScheduledTask) (s : EngineState) : EngineState :=
  let s1 := { s with events := s.events ++ [Event.invokeE t.id] }
  let s2 := runCmds t.callback.prog s1
  { s2 with now := s2.now + (t.callback.cost : Int) }

/-- executeTaskImmediately (lines 339-351): invoke the callback if the
task is still registered, then remove it and republish. -/
def executeTaskImmediately (id : Nat) (s : EngineState) : EngineState :=
  match findTask id s with
  | none => s
  | some t => publishCount (deleteTask id (invokeTask t s))

/-- runTaskWithPostTask (lines 429-451): enroll one batched task with
scheduler.postTask, creating a fresh AbortController, unless a live
controller already exists.  Non-batched tasks are refused. -/
def runTaskWithPostTask (t : ScheduledTask) (s : EngineState) : EngineState :=
  if ¬ t.batching then s
  else if t.postTaskAborted = some false then s
  else { s with taskQueue := (s.taskQueue.map
          (fun u => if u.id = t.id then { u with postTaskAborted := some false } else u)) }

/-- The taskQueue.forEach enrollment loop used when entering postTask
mode (lines 373 and 389). -/
def enrollList : List ScheduledTask → EngineState → EngineState
  | [], s => s
  | t :: ts, s => enrollList ts (if t.batching then runTaskWithPostTask t s else s)

/-- Arm the background setTimeout ticker (lines 395-398). -/
def armBackgroundTicker (s : EngineState) : EngineState :=
  { s with nativeTimerCounter := s.nativeTimerCounter + 1
           backgroundTickerId := some s.nativeTimerCounter
           nativeTimers := s.nativeTimers ++
             [⟨s.nativeTimerCounter, s.cfg.backgroundTickInterval, s.now, NativePayload.tick⟩] }

/-- window.requestAnimationFrame(this.processRafQueue). -/
def armRaf (s : EngineState) : EngineState :=
  { s with rafCounter := s.rafCounter + 1
           animationFrameId := s.rafCounter + 1 }

/-- startAppropriateTicker (lines 356-401): the Mode Selector; the
hasBatchedTasks flag of line 358 is inlined into the first test. -/
def startAppropriateTicker (s : EngineState) : EngineState :=
  if ¬ s.taskQueue.any (fun t => t.batching) then
    { s with currentSchedulingMode := Mode.idle }
  else if s.cfg.primaryStrategy = Strategy.responsiveness ∧ s.isPostTaskSupported then
    enrollList s.taskQueue { s with currentSchedulingMode := Mode.postTask }
  else if ¬ s.hidden then
    armRaf { s with currentSchedulingMode := Mode.rAF }
  else if s.isPostTaskSupported then
    enrollList s.taskQueue { s with currentSchedulingMode := Mode.postTask }
  else
    armBackgroundTicker { s with currentSchedulingMode := Mode.timeout }

/-- Number(options?.delay) || 0 (line 192): Number of a missing or
non-numeric delay is NaN, which the logical-or turns into 0; a finite
value (negative zero included) passes through the logical-or unchanged
unless it is zero. -/
def coerceDelay (d : Option JSNum) : Int :=
  match d with
  | none => 0
  | some JSNum.nan => 0
  | some (JSNum.num n) => if n = 0 then 0 else n

/-- scheduleTask (lines 187-229). -/
def scheduleTask (cb : Cb) (opts : TaskOptionsInput) (s : EngineState) :
    EngineState × Nat :=
  let taskId := s.taskIdCounter + 1
  let priority := opts.priority.getD TaskPriority.userVisible
  let useBatching := opts.batching.getD true
  let delay := coerceDelay opts.delay
  let executeAt := s.now + delay
  let task : ScheduledTask :=
    { id := taskId, callback := cb, executeAt := executeAt, args := []
      priority := priority, batching := useBatching
      nativeTimerId := if useBatching then none else some s.nativeTimerCounter
      postTaskAborted := none }
  let q := s.taskQueue ++ [task]
  let s1 := { s with taskIdCounter := taskId, taskQueue := q
                     events := s.events ++ [Event.insertE taskId q.length] }
  let s2 := publishCount s1
  if ¬ useBatching then
    ({ s2 with nativeTimerCounter := s.nativeTimerCounter + 1
               nativeTimers := s2.nativeTimers ++
                 [⟨s.nativeTimerCounter, delay, s.now, NativePayload.execTask taskId⟩] },
     taskId)
  else if s2.currentSchedulingMode = Mode.idle ∧ 0 < q.length then
    (startAppropriateTicker s2, taskId)
  else if s2.currentSchedulingMode = Mode.postTask then
    (runTaskWithPostTask task s2, taskId)
  else
    (s2, taskId)

/-- overrideTimeouts (lines 257-282); the global entry-point patching
itself is out of scope, only the idempotent flag is modelled. -/
def overrideTimeouts (s : EngineState) : EngineState :=
  if s.isOverridden then s else { s with isOverridden := true }

/-- adjustFrameBudget (lines 517-530), as a function of the inputs the
source reads: the dynamic-budget switch, the current mode, the
configured time budget, the ceiling, the current value and the cycle's
duration.  Math.floor(x * 0.9) on the integers in range is (9 * x) / 10. -/
def adjustFrameBudget (dyn : Bool) (mode : Mode) (budgetMs : Int)
    (maxT cur : Nat) (dur : Int) : Nat :=
  if ¬ dyn ∨ mode ≠ Mode.rAF then cur
  else if budgetMs < dur ∧ 1 < cur then max 1 ((9 * cur) / 10)
  else if dur < budgetMs ∧ cur < maxT then min maxT (cur + 1)
  else cur

/-- The per-task execute-and-delete helper inside processRafQueue
(lines 473-477); the tasksExecutedThisFrame increment is carried by the
loop functions below. -/
def procOne (t : ScheduledTask) (s : EngineState) : EngineState :=
  deleteTask t.id (invokeTask t s)

/-- The high-priority loop of processRafQueue (lines 480-483). -/
def processHigh (budget : Nat) :
    List ScheduledTask → EngineState → Nat → EngineState × Nat
  | [], s, n => (s, n)
  | t :: ts, s, n =>
    if budget ≤ n then (s, n)
    else processHigh budget ts (procOne t s) (n + 1)

/-- The low-priority loop of processRafQueue (lines 486-490): before
each task it re-reads the elapsed time and stops when the time budget
or the task-count budget is exhausted. -/
def processLow (budget : Nat) (budgetMs frameStart : Int) :
    List ScheduledTask → EngineState → Nat → EngineState × Nat
  | [], s, n => (s, n)
  | t :: ts, s, n =>
    if budgetMs ≤ s.now - frameStart ∨ budget ≤ n then (s, n)
    else processLow budget budgetMs frameStart ts (procOne t s) (n + 1)

/-- The due-task scan (lines 466-467): batched tasks whose executeAt has
passed, in registry order. -/
def dueTasks (s : EngineState) : List ScheduledTask :=
  s.taskQueue.filter (fun t => t.batching ∧ t.executeAt ≤ s.now)

/-- The tail of processRafQueue after the two loops (lines 492-511):
invoke the Budget Controller on the cycle's duration, republish the
count, then re-arm the active driver if batched tasks remain, else go
idle. -/
def cycleWrapUp (frameStart : Int) (s2 : EngineState) : EngineState :=
  let s3 := { s2 with currentTasksPerFrame :=
    (adjustFrameBudget s2.cfg.dynamicBudgetEnabled s2.currentSchedulingMode
      s2.cfg.frameTimeBudgetMs s2.cfg.maxTasksPerFrame s2.currentTasksPerFrame
      (s2.now - frameStart)) }
  let s4 := publishCount s3
  if s4.taskQueue.any (fun t => t.batching) then
    if s4.currentSchedulingMode = Mode.rAF then armRaf s4
    else if s4.currentSchedulingMode = Mode.timeout then armBackgroundTicker s4
    else s4
  else { s4 with currentSchedulingMode := Mode.idle }

/-- processRafQueue (lines 457-512): the Execution Cycle. -/
def processRafQueue (s : EngineState) : EngineState :=
  if s.currentSchedulingMode ≠ Mode.rAF ∧ s.currentSchedulingMode ≠ Mode.timeout then s
  else
    let frameStart := s.now
    let due := dueTasks s
    let highPriorityTasks := due.filter (fun t => t.priority = TaskPriority.userVisible)
    let lowPriorityTasks := due.filter (fun t => t.priority = TaskPriority.background)
    let budget := s.currentTasksPerFrame
    let r1 := processHigh budget highPriorityTasks s 0
    let r2 := processLow budget s.cfg.frameTimeBudgetMs frameStart lowPriorityTasks r1.1 r1.2
    cycleWrapUp frameStart r2.1

/-- handleVisibilityChange (lines 331-334). -/
def handleVisibilityChange (s : EngineState) : EngineState :=
  startAppropriateTicker (stopAllTickers s)

/-- What a fired native timer's payload does: the non-batched wrapper
calls executeTaskImmediately, a restoreTimeouts handoff timer runs the
re-registered callback directly, the background ticker runs the
Execution Cycle. -/
def runPayload (p : NativePayload) (s : EngineState) : EngineState :=
  match p with
  | NativePayload.execTask i => executeTaskImmediately i s
  | NativePayload.direct i cb _ =>
    let s2 := { s with events := s.events ++ [Event.invokeE i] }
    let s3 := runCmds cb.prog s2
    { s3 with now := s3.now + (cb.cost : Int) }
  | NativePayload.tick => processRafQueue s

/-- The host firing an armed native timer: only enabled once the timer's
delay has elapsed (negative delays are clamped by the host); the timer
is consumed, then its payload runs. -/
def fireNative (tid : Nat) (s : EngineState) : EngineState :=
  match s.nativeTimers.find? (fun nt => nt.timerId = tid) with
  | none => s
  | some nt =>
    if s.now < nt.armedAt + max 0 nt.delay then s
    else runPayload nt.payload (clearNativeTimer tid s)

/-- The host running a cooperative (scheduler.postTask) dispatch for a
task: enabled only for a registered task with a live (non-aborted)
controller; runs executeTaskImmediately as the source's closure does. -/
def postTaskDispatch (id : Nat) (s : EngineState) : EngineState :=
  match findTask id s with
  | some t =>
    if t.batching ∧ t.postTaskAborted = some false then executeTaskImmediately id s
    else s
  | none => s

/-- The cooperative-dispatch error path (lines 443-450): a non-abort
failure removes the task and republishes the count. -/
def postTaskFail (id : Nat) (s : EngineState) : EngineState :=
  publishCount (deleteTask id s)

/-- One external stimulus applied to the engine. -/
inductive Op where
  | scheduleOp (cb : Cb) (opts : TaskOptionsInput)
  | cancelOp (id : Nat)
  | runCycleOp
  | fireNativeOp (tid : Nat)
  | postTaskDispatchOp (id : Nat)
  | postTaskFailOp (id : Nat)
  | visibilityOp (hidden : Bool)
  | overrideOp
  | restoreOp
  | advanceOp (d : Nat)
deriving DecidableEq, Repr

/-- Apply one stimulus. -/
def step (op : Op) (s : EngineState) : EngineState :=
  match op with
  | Op.scheduleOp cb opts => (scheduleTask cb opts s).1
  | Op.cancelOp id => cancelTask id s
  | Op.runCycleOp => processRafQueue s
  | Op.fireNativeOp tid => fireNative tid s
  | Op.postTaskDispatchOp id => postTaskDispatch id s
  | Op.postTaskFailOp id => postTaskFail id s
  | Op.visibilityOp h => handleVisibilityChange { s with hidden := h }
  | Op.overrideOp => overrideTimeouts s
  | Op.restoreOp => restoreTimeouts s
  | Op.advanceOp d => { s with now := s.now + (d : Int) }

/-- Fold a stimulus list over the state. -/
def runOps : List Op → EngineState → EngineState
  | [], s => s
  | op :: ops, s => runOps ops (step op s)

/-- The state produced by the constructor (lines 153-179): resolved
configuration, BehaviorSubject holding 0, empty registry, then the
initial handleVisibilityChange call. -/
def initEngine (c : SchedulerConfigInput) (postTaskSupported hidden : Bool) :
    EngineState :=
  let cfg := resolveConfig c
  handleVisibilityChange
    { cfg := cfg, isPostTaskSupported := postTaskSupported, hidden := hidden
      isOverridden := false, taskIdCounter := 0, taskQueue := []
      currentSchedulingMode := Mode.idle
      currentTasksPerFrame := cfg.initialTasksPerFrame
      animationFrameId := 0, rafCounter := 0, backgroundTickerId := none
      nativeTimers := [], nativeTimerCounter := 1, now := 0
      published := [0], events := [], completed := false }

/-- The constructor's environment check (lines 165-167): it requires
window and window.performance, and throws otherwise (none).  The
postTask feature detection of lines 170-172 also requires window. -/
def constructScheduler (h : HostCaps) (c : SchedulerConfigInput) :
    Option EngineState :=
  if ¬ h.hasWindow ∨ ¬ h.hasPerformance then none
  else some (initEngine c (h.hasWindow ∧ h.postTaskSupported) h.documentHidden)

/-- The callback invocations recorded in a trace, in order. -/
def invokesOf : List Event → List Nat
  | [] => []
  | Event.invokeE i :: rest => i :: invokesOf rest
  | _ :: rest => invokesOf rest

/-- How many times the trace records an invocation of a given task id. -/
def invCount (id : Nat) (evs : List Event) : Nat :=
  (invokesOf evs).count id

/-- The registry size an event asserts right after a mutation, if the
event is a mutation. -/
def mutationSize : Event → Option Nat
  | Event.insertE _ n => some n
  | Event.removeE _ n => some n
  | Event.clearE => some 0
  | _ => none

/-- Whether every registry mutation in the trace is immediately followed
by a publication of the new registry size. -/
def syncPublished : List Event → Bool
  | [] => true
  | e :: rest =>
    match mutationSize e with
    | none => syncPublished rest
    | some n =>
      match rest with
      | Event.publishE m :: _ => decide (m = n) && syncPublished rest
      | _ => false

/-- Whether the trace shows a completed cancelTask call for a task id
followed later by an invocation of that very task's callback. -/
def hasCancelThenInvoke (id : Nat) : List Event → Bool
  | [] => false
  | Event.cancelledE i :: rest =>
    (decide (i = id) && decide (id ∈ invokesOf rest)) || hasCancelThenInvoke id rest
  | _ :: rest => hasCancelThenInvoke id rest

/-- The task ids for which the host holds a directly re-registered
callback (a restoreTimeouts handoff timer). -/
def directIds (l : List NativeTimer) : List Nat :=
  l.filterMap (fun nt =>
    match nt.payload with
    | NativePayload.direct i _ _ => some i
    | _ => none)

/-- Whether an armed native timer is the restoreTimeouts handoff timer
of a given task id. -/
def isDirectFor (id : Nat) (nt : NativeTimer) : Bool :=
  match nt.payload with
  | NativePayload.direct i _ _ => decide (i = id)
  | _ => false

/-- The Mode Selector as the specification words it (decision order of
claim C4): no batched tasks means idle; else a responsiveness strategy
with the cooperative primitive available means cooperative regardless
of visibility; else visible means frame-paced; else cooperative if
available, otherwise the interval fallback. -/
def specModeSelector (hasBatched : Bool) (strategy : Strategy)
    (postTaskAvail : Bool) (visible : Bool) : Mode :=
  if ¬ hasBatched then Mode.idle
  else if strategy = Strategy.responsiveness ∧ postTaskAvail then Mode.postTask
  else if visible then Mode.rAF
  else if postTaskAvail then Mode.postTask
  else Mode.timeout

/-- Total execution cost of a list of tasks' callbacks. -/
def costSum : List ScheduledTask → Int
  | [] => 0
  | t :: ts => (t.callback.cost : Int) + costSum ts

/-- The low-priority tasks the Execution Cycle's second loop selects,
computed from the loop's guards alone: starting from clock value now
and executed count n, a task is taken only while the elapsed time is
strictly under the time budget and the count is strictly under the
task-count budget; invoking it advances the clock by its cost. -/
def selectLows (budget : Nat) (budgetMs frameStart : Int) :
    List ScheduledTask → Int → Nat → List ScheduledTask
  | [], _, _ => []
  | t :: ts, now, n =>
    if budgetMs ≤ now - frameStart ∨ budget ≤ n then []
    else t :: selectLows budget budgetMs frameStart ts (now + (t.callback.cost : Int)) (n + 1)

/-- The due high-priority tasks an Execution Cycle starting in state s
partitions off (line 469). -/
def cycleHighs (s : EngineState) : List ScheduledTask :=
  (dueTasks s).filter (fun t => t.priority = TaskPriority.userVisible)

/-- The due low-priority tasks of an Execution Cycle (line 470). -/
def cycleLows (s : EngineState) : List ScheduledTask :=
  (dueTasks s).filter (fun t => t.priority = TaskPriority.background)

/-- The low-priority tasks the cycle's second loop actually executes,
starting from the clock and count the high-priority loop left behind. -/
def cycleSelectedLows (s : EngineState) : List ScheduledTask :=
  selectLows s.currentTasksPerFrame s.cfg.frameTimeBudgetMs s.now (cycleLows s)
    (s.now + costSum ((cycleHighs s).take s.currentTasksPerFrame))
    (min s.currentTasksPerFrame (cycleHighs s).length)

/-- The task ids an Execution Cycle starting in state s invokes, in
execution order: the due high-priority tasks up to the task-count
budget, then the guard-admitted low-priority tasks. -/
def cycleInvoked (s : EngineState) : List Nat :=
  ((cycleHighs s).take s.currentTasksPerFrame).map (fun t => t.id)
    ++ (cycleSelectedLows s).map (fun t => t.id)

/-- The scheduling-relevant fields of a task: id, due time, priority,
batching flag.  Controller bookkeeping (postTaskAborted) is excluded:
enrollment and aborts touch only that field. -/
def taskCore (t : ScheduledTask) : Nat × Int × TaskPriority × Bool :=
  (t.id, t.executeAt, t.priority, t.batching)

/-- A callback that does nothing and takes no time. -/
def nopCb : Cb := ⟨[], 0⟩

/-- scheduleTask called with no options object. -/
def defaultOpts : TaskOptionsInput := ⟨none, none, none⟩

/-- A concrete engine on a hidden document without cooperative-primitive
support, holding one batched task: its Mode Selector decision is the
interval fallback. -/
def c4State : EngineState :=
  (scheduleTask nopCb defaultOpts (initEngine noConfig false true)).1

/-- A concrete frame-paced state whose due-set holds one high-priority
and one low-priority task, both already due. -/
def c5State : EngineState :=
  { cfg := resolveConfig noConfig, isPostTaskSupported := false, hidden := false
    isOverridden := false, taskIdCounter := 2
    taskQueue := [⟨1, nopCb, 0, [], TaskPriority.userVisible, true, none, none⟩,
                  ⟨2, nopCb, 0, [], TaskPriority.background, true, none, none⟩]
    currentSchedulingMode := Mode.rAF, currentTasksPerFrame := 50
    animationFrameId := 1, rafCounter := 1, backgroundTickerId := none
    nativeTimers := [], nativeTimerCounter := 1, now := 0, published := [2, 1, 0]
    events := [], completed := false }

/-- The pending-count contract: the most recently published count
equals the registry's cardinality. -/
def PubOK (s : EngineState) : Prop :=
  lastPublished s = s.taskQueue.length

/-- Two immediately-due batched schedules followed by one Execution
Cycle. -/
def c2Ops : List Op :=
  [Op.scheduleOp nopCb defaultOpts, Op.scheduleOp nopCb defaultOpts, Op.runCycleOp]

/-- A concrete overridden engine with one batched pending task and one
non-batched pending task whose dedicated timer 1 is armed. -/
def c3State : EngineState :=
  { cfg := resolveConfig noConfig, isPostTaskSupported := false, hidden := false
    isOverridden := true, taskIdCounter := 2
    taskQueue := [⟨1, nopCb, 100, [], TaskPriority.userVisible, true, none, none⟩,
                  ⟨2, nopCb, 30, [], TaskPriority.userVisible, false, some 1, none⟩]
    currentSchedulingMode := Mode.rAF, currentTasksPerFrame := 50
    animationFrameId := 1, rafCounter := 1, backgroundTickerId := none
    nativeTimers := [⟨1, 30, 0, NativePayload.execTask 2⟩], nativeTimerCounter := 2
    now := 10, published := [2, 1, 0], events := [], completed := false }

/-- A callback that cancels task id 2 and takes no time. -/
def cbCancel2 : Cb := ⟨[Cmd.cancelC 2], 0⟩

/-- Schedule a task whose callback cancels task 2, schedule a second
task (which receives id 2), then run one Execution Cycle. -/
def c1Ops : List Op :=
  [Op.scheduleOp cbCancel2 defaultOpts, Op.scheduleOp nopCb defaultOpts,
   Op.runCycleOp]

/-- A callback that re-enters restoreTimeouts and takes no time. -/
def cbRestore : Cb := ⟨[Cmd.restoreC], 0⟩

/-- Intercept the globals, schedule an immediately-due batched task whose
callback calls restoreTimeouts, run one Execution Cycle (during which
the callback's restore re-registers the still-registered task on a
native handoff timer), then let the host fire that handoff timer. -/
def c1bOps : List Op :=
  [Op.overrideOp, Op.scheduleOp cbRestore defaultOpts, Op.runCycleOp,
   Op.fireNativeOp 1]

/-- Relation between a state and a later state reached by running
callback commands: the registry only loses entries, the id counter, the
configuration and the task budget are untouched, and the scheduling mode
is either unchanged or idle (a re-entrant restoreTimeouts stops the
drivers).  Unlike Shrinks, the armed native timers may grow: a
re-entrant restore arms handoff timers. -/
def CbShrinks (s s' : EngineState) : Prop :=
  List.Sublist (queueIds s') (queueIds s) ∧
  s'.taskIdCounter = s.taskIdCounter ∧
  s'.cfg = s.cfg ∧
  s'.currentTasksPerFrame = s.currentTasksPerFrame ∧
  (s'.currentSchedulingMode = s.currentSchedulingMode ∨
    s'.currentSchedulingMode = Mode.idle)

/-- Relation between a state and a later state that differ at most in
the tasks' controller bookkeeping (postTaskAborted): every other field
is equal and the queue has the same core data, in order. -/
def SameButQueue (s s' : EngineState) : Prop :=
  s'.taskQueue.map taskCore = s.taskQueue.map taskCore ∧
  s'.events = s.events ∧ s'.published = s.published ∧ s'.now = s.now ∧
  s'.taskIdCounter = s.taskIdCounter ∧ s'.nativeTimers = s.nativeTimers ∧
  s'.nativeTimerCounter = s.nativeTimerCounter ∧
  s'.currentSchedulingMode = s.currentSchedulingMode ∧
  s'.currentTasksPerFrame = s.currentTasksPerFrame ∧ s'.cfg = s.cfg ∧
  s'.isOverridden = s.isOverridden ∧ s'.backgroundTickerId = s.backgroundTickerId ∧
  s'.animationFrameId = s.animationFrameId ∧ s'.rafCounter = s.rafCounter ∧
  s'.isPostTaskSupported = s.isPostTaskSupported ∧ s'.hidden = s.hidden ∧
  s'.completed = s.completed

/-- The handoff timers restoreTimeouts arms, one per still-pending task
in registry order, with consecutive host timer ids. -/
def mkHandoffTimers (now : Int) (cnt : Nat) : List ScheduledTask → List NativeTimer
  | [] => []
  | t :: ts =>
    ⟨cnt, max 0 (t.executeAt - now), now, NativePayload.direct t.id t.callback t.args⟩
      :: mkHandoffTimers now (cnt + 1) ts

/-- Relation between a state and a later state reached by operations
that only remove registry entries and native timers (callback command
execution and the Execution Cycle's loops): ids and timers shrink as
sublists and every control field is untouched. -/
def Shrinks (s s' : EngineState) : Prop :=
  List.Sublist (queueIds s') (queueIds s) ∧ List.Sublist s'.nativeTimers s.nativeTimers ∧
  s'.taskIdCounter = s.taskIdCounter ∧ s'.cfg = s.cfg ∧
  s'.currentSchedulingMode = s.currentSchedulingMode ∧
  s'.currentTasksPerFrame = s.currentTasksPerFrame ∧
  s'.isPostTaskSupported = s.isPostTaskSupported ∧ s'.hidden = s.hidden ∧
  s'.isOverridden = s.isOverridden ∧ s'.animationFrameId = s.animationFrameId ∧
  s'.backgroundTickerId = s.backgroundTickerId ∧ s'.rafCounter = s.rafCounter ∧
  s'.nativeTimerCounter = s.nativeTimerCounter ∧ s'.completed = s.completed

theorem Shrinks.srefl (s : EngineState) : Shrinks s s := by
  refine ⟨List.Sublist.refl _, List.Sublist.refl _, ?_, ?_, ?_, ?_, ?_, ?_, ?_, ?_, ?_, ?_, ?_, ?_⟩ <;> rfl

theorem Shrinks.strans {s1 s2 s3 : EngineState}
    (h : Shrinks s1 s2) (h' : Shrinks s2 s3) : Shrinks s1 s3 := by
  obtain ⟨a, b, c, d, e, f, g, h8, h9, h10, h11, h12, h13, h14⟩ := h
  obtain ⟨a', b', c', d', e', f', g', k8, k9, k10, k11, k12, k13, k14⟩ := h'
  exact ⟨a'.trans a, b'.trans b, c'.trans c, d'.trans d, e'.trans e, f'.trans f,
    g'.trans g, k8.trans h8, k9.trans h9, k10.trans h10, k11.trans h11,
    k12.trans h12, k13.trans h13, k14.trans h14⟩

theorem invokesOf_append (a b : List Event) :
    invokesOf (a ++ b) = invokesOf a ++ invokesOf b := by
  induction a with
  | nil => rfl
  | cons e rest ih => cases e <;> simp [invokesOf, ih]

theorem queueIds_map_id_preserving (q : List ScheduledTask)
    (g : ScheduledTask → ScheduledTask) (hg : ∀ t, (g t).id = t.id) :
    (q.map g).map (fun t => t.id) = q.map (fun t => t.id) := by
  induction q with
  | nil => rfl
  | cons t rest ih => simp [ih, hg]

theorem queueIds_filter_sublist (q : List ScheduledTask)
    (p : ScheduledTask → Bool) :
    List.Sublist ((q.filter p).map (fun t => t.id)) (q.map (fun t => t.id)) :=
  (List.filter_sublist q).map _

theorem publishCount_spec (s : EngineState) :
    (publishCount s).taskQueue = s.taskQueue ∧
    (publishCount s).events = s.events ++ [Event.publishE s.taskQueue.length] ∧
    (publishCount s).now = s.now ∧ (publishCount s).nativeTimers = s.nativeTimers ∧
    lastPublished (publishCount s) = s.taskQueue.length ∧
    Shrinks s (publishCount s) := by
  refine ⟨rfl, rfl, rfl, rfl, rfl, ?_⟩
  exact ⟨List.Sublist.refl _, List.Sublist.refl _, rfl, rfl, rfl, rfl, rfl, rfl,
    rfl, rfl, rfl, rfl, rfl, rfl⟩

theorem deleteTask_spec (id : Nat) (s : EngineState) :
    ((deleteTask id s).taskQueue = s.taskQueue.filter (fun t => t.id ≠ id) ∨
      (deleteTask id s).taskQueue = s.taskQueue) ∧
    invokesOf (deleteTask id s).events = invokesOf s.events ∧
    (deleteTask id s).now = s.now ∧
    (deleteTask id s).nativeTimers = s.nativeTimers ∧
    (deleteTask id s).published = s.published ∧
    Shrinks s (deleteTask id s) := by
  unfold deleteTask
  split
  · refine ⟨Or.inl rfl, ?_, rfl, rfl, rfl, ?_⟩
    · simp [invokesOf_append, invokesOf]
    · exact ⟨queueIds_filter_sublist _ _, List.Sublist.refl _, rfl, rfl, rfl, rfl,
        rfl, rfl, rfl, rfl, rfl, rfl, rfl, rfl⟩
  · exact ⟨Or.inr rfl, rfl, rfl, rfl, rfl, Shrinks.srefl s⟩

theorem clearNativeTimer_spec (tid : Nat) (s : EngineState) :
    (clearNativeTimer tid s).taskQueue = s.taskQueue ∧
    (clearNativeTimer tid s).events = s.events ∧
    (clearNativeTimer tid s).now = s.now ∧
    (clearNativeTimer tid s).published = s.published ∧
    Shrinks s (clearNativeTimer tid s) := by
  refine ⟨rfl, rfl, rfl, rfl, ?_⟩
  exact ⟨List.Sublist.refl _, List.filter_sublist _, rfl, rfl, rfl, rfl, rfl, rfl,
    rfl, rfl, rfl, rfl, rfl, rfl⟩

theorem setAborted_id (t : ScheduledTask) : (setAborted t).id = t.id := by
  unfold setAborted
  cases t.postTaskAborted <;> rfl

theorem cancelTask_spec (id : Nat) (s : EngineState) :
    invokesOf (cancelTask id s).events = invokesOf s.events ∧
    (cancelTask id s).now = s.now ∧
    Shrinks s (cancelTask id s) := by
  unfold cancelTask
  cases hf : findTask id s with
  | none => exact ⟨rfl, rfl, Shrinks.srefl s⟩
  | some t =>
    simp only []
    set s1 := (match t.nativeTimerId with
      | some tid => clearNativeTimer tid s
      | none => s) with hs1
    have h1 : s1.taskQueue = s.taskQueue ∧ s1.events = s.events ∧ s1.now = s.now ∧
        Shrinks s s1 := by
      rw [hs1]
      cases t.nativeTimerId with
      | none => exact ⟨rfl, rfl, rfl, Shrinks.srefl s⟩
      | some tid =>
        obtain ⟨a, b, c, _, e⟩ := clearNativeTimer_spec tid s
        exact ⟨a, b, c, e⟩
    set s2 : EngineState := { s1 with
      taskQueue := s1.taskQueue.map (fun u => if u.id = id then setAborted u else u)
      events := s1.events ++ [Event.cancelledE id] } with hs2
    have h2 : invokesOf s2.events = invokesOf s1.events ∧ s2.now = s1.now ∧
        Shrinks s1 s2 := by
      refine ⟨?_, rfl, ?_, List.Sublist.refl _, rfl, rfl, rfl, rfl, rfl, rfl, rfl,
        rfl, rfl, rfl, rfl, rfl⟩
      · rw [hs2]
        simp [invokesOf_append, invokesOf]
      · show List.Sublist (queueIds s2) (queueIds s1)
        unfold queueIds
        rw [hs2]
        rw [queueIds_map_id_preserving _ _ (fun t => by
          by_cases h : t.id = id <;> simp [h, setAborted_id])]
    obtain ⟨d1, d2, d3, d4, d5, d6⟩ := deleteTask_spec id s2
    obtain ⟨p1, p2, p3, p4, p5, p6⟩ := publishCount_spec (deleteTask id s2)
    refine ⟨?_, ?_, ?_⟩
    · rw [p2, invokesOf_append, d2, h2.1, h1.2.1]
      simp [invokesOf]
    · rw [p3, d3, h2.2.1, h1.2.2.1]
    · exact ((h1.2.2.2.strans h2.2.2).strans d6).strans p6

theorem taskCore_setAborted (t : ScheduledTask) :
    taskCore (setAborted t) = taskCore t := by
  unfold setAborted
  cases t.postTaskAborted <;> rfl

theorem setAborted_batching (t : ScheduledTask) :
    (setAborted t).batching = t.batching := by
  unfold setAborted
  cases t.postTaskAborted <;> rfl

theorem stopAllTickers_spec (s : EngineState) :
    (stopAllTickers s).taskQueue.map taskCore = s.taskQueue.map taskCore ∧
    (stopAllTickers s).events = s.events ∧
    (stopAllTickers s).published = s.published ∧
    (stopAllTickers s).now = s.now ∧
    (stopAllTickers s).taskIdCounter = s.taskIdCounter ∧
    (stopAllTickers s).cfg = s.cfg ∧
    (stopAllTickers s).currentTasksPerFrame = s.currentTasksPerFrame ∧
    (stopAllTickers s).isOverridden = s.isOverridden ∧
    (stopAllTickers s).hidden = s.hidden ∧
    (stopAllTickers s).isPostTaskSupported = s.isPostTaskSupported ∧
    List.Sublist (stopAllTickers s).nativeTimers s.nativeTimers ∧
    (stopAllTickers s).nativeTimerCounter = s.nativeTimerCounter ∧
    (stopAllTickers s).currentSchedulingMode = Mode.idle ∧
    (stopAllTickers s).animationFrameId = 0 ∧
    (stopAllTickers s).backgroundTickerId = none ∧
    (stopAllTickers s).completed = s.completed ∧
    (∀ tid, s.backgroundTickerId = some tid →
      ∀ nt ∈ (stopAllTickers s).nativeTimers, nt.timerId ≠ tid) ∧
    (stopAllTickers s).taskQueue = s.taskQueue.map setAborted := by
  unfold stopAllTickers
  have hcore : ∀ q : List ScheduledTask, (q.map setAborted).map taskCore = q.map taskCore := by
    intro q
    rw [List.map_map]
    exact List.map_congr_left (fun u _ => taskCore_setAborted u)
  cases hbg : s.backgroundTickerId with
  | none =>
    refine ⟨hcore s.taskQueue, rfl, rfl, rfl, rfl, rfl, rfl, rfl, rfl, rfl,
      List.Sublist.refl _, rfl, rfl, rfl, rfl, rfl, ?_, rfl⟩
    intro tid htid
    exact nomatch htid
  | some tid =>
    refine ⟨hcore _, rfl, rfl, rfl, rfl, rfl, rfl, rfl, rfl, rfl,
      List.filter_sublist _, rfl, rfl, rfl, rfl, rfl, ?_, rfl⟩
    intro tid2 htid2 nt hnt
    cases htid2
    have hnt2 : nt ∈ s.nativeTimers.filter (fun u => u.timerId ≠ tid) := hnt
    rw [List.mem_filter] at hnt2
    exact of_decide_eq_true hnt2.2

theorem setAborted_fields (t : ScheduledTask) :
    (setAborted t).id = t.id ∧ (setAborted t).callback = t.callback ∧
    (setAborted t).executeAt = t.executeAt ∧ (setAborted t).args = t.args ∧
    (setAborted t).nativeTimerId = t.nativeTimerId := by
  unfold setAborted
  cases t.postTaskAborted <;> exact ⟨rfl, rfl, rfl, rfl, rfl⟩

theorem mkHandoffTimers_setAborted (now : Int) :
    ∀ (q : List ScheduledTask) (cnt : Nat),
    mkHandoffTimers now cnt (q.map setAborted) = mkHandoffTimers now cnt q := by
  intro q
  induction q with
  | nil => intro cnt; rfl
  | cons t ts ih =>
    intro cnt
    obtain ⟨h1, h2, h3, h4, _⟩ := setAborted_fields t
    show (⟨cnt, max 0 ((setAborted t).executeAt - now), now,
        NativePayload.direct (setAborted t).id (setAborted t).callback
          (setAborted t).args⟩ : NativeTimer) :: _ = _
    rw [h1, h2, h3, h4, ih (cnt + 1)]
    rfl

theorem mkHandoffTimers_mem (now : Int) :
    ∀ (q : List ScheduledTask) (cnt : Nat),
    ∀ nt ∈ mkHandoffTimers now cnt q, ∃ u ∈ q,
      nt.payload = NativePayload.direct u.id u.callback u.args ∧
      nt.delay = max 0 (u.executeAt - now) ∧ nt.armedAt = now ∧ cnt ≤ nt.timerId := by
  intro q
  induction q with
  | nil => intro cnt nt hnt; cases hnt
  | cons t ts ih =>
    intro cnt nt hnt
    rw [mkHandoffTimers, List.mem_cons] at hnt
    cases hnt with
    | inl h =>
      exact ⟨t, List.mem_cons_self t ts, by rw [h], by rw [h], by rw [h], by rw [h]⟩
    | inr h =>
      obtain ⟨u, hu, p1, p2, p3, p4⟩ := ih (cnt + 1) nt h
      exact ⟨u, List.mem_cons_of_mem t hu, p1, p2, p3, by omega⟩

theorem mkHandoffTimers_filter_count (now : Int) (i : Nat) :
    ∀ (q : List ScheduledTask) (cnt : Nat),
    ((mkHandoffTimers now cnt q).filter (isDirectFor i)).length =
      (q.map (fun t => t.id)).count i := by
  intro q
  induction q with
  | nil => intro cnt; rfl
  | cons t ts ih =>
    intro cnt
    rw [mkHandoffTimers, List.map_cons, List.filter_cons, List.count_cons]
    by_cases h : t.id = i
    · rw [if_pos (by show isDirectFor i _ = true; unfold isDirectFor; simp [h]),
        List.length_cons, ih (cnt + 1)]
      simp [h]
    · rw [if_neg (by show ¬ isDirectFor i _ = true; unfold isDirectFor; simp [h]),
        ih (cnt + 1)]
      simp [h]

theorem rescheduleList_spec (now : Int) :
    ∀ (ts : List ScheduledTask) (s : EngineState),
    (rescheduleList now ts s).nativeTimers =
      s.nativeTimers ++ mkHandoffTimers now s.nativeTimerCounter ts ∧
    (rescheduleList now ts s).taskQueue = s.taskQueue ∧
    (rescheduleList now ts s).events = s.events ∧
    (rescheduleList now ts s).published = s.published ∧
    (rescheduleList now ts s).now = s.now ∧
    (rescheduleList now ts s).taskIdCounter = s.taskIdCounter ∧
    (rescheduleList now ts s).currentSchedulingMode = s.currentSchedulingMode ∧
    (rescheduleList now ts s).animationFrameId = s.animationFrameId ∧
    (rescheduleList now ts s).backgroundTickerId = s.backgroundTickerId ∧
    (rescheduleList now ts s).isOverridden = s.isOverridden ∧
    (rescheduleList now ts s).currentTasksPerFrame = s.currentTasksPerFrame ∧
    (rescheduleList now ts s).cfg = s.cfg := by
  intro ts
  induction ts with
  | nil =>
    intro s
    exact ⟨by rw [mkHandoffTimers, List.append_nil]; rfl, rfl, rfl, rfl, rfl, rfl,
      rfl, rfl, rfl, rfl, rfl, rfl⟩
  | cons t ts ih =>
    intro s
    obtain ⟨a, b, c, d, e, f, g, p8, p9, p10, p11, p12⟩ := ih
      { s with nativeTimerCounter := s.nativeTimerCounter + 1
               nativeTimers := s.nativeTimers ++
                 [⟨s.nativeTimerCounter, max 0 (t.executeAt - now), now,
                   NativePayload.direct t.id t.callback t.args⟩] }
    refine ⟨?_, b, c, d, e, f, g, p8, p9, p10, p11, p12⟩
    rw [rescheduleList, a]
    show (s.nativeTimers ++ [_]) ++ _ = _
    rw [List.append_assoc]
    rfl

theorem clearTaskTimersList_spec :
    ∀ (ts : List ScheduledTask) (s : EngineState),
    List.Sublist (clearTaskTimersList ts s).nativeTimers s.nativeTimers ∧
    (clearTaskTimersList ts s).taskQueue = s.taskQueue ∧
    (clearTaskTimersList ts s).events = s.events ∧
    (clearTaskTimersList ts s).published = s.published ∧
    (clearTaskTimersList ts s).now = s.now ∧
    (clearTaskTimersList ts s).taskIdCounter = s.taskIdCounter ∧
    (clearTaskTimersList ts s).nativeTimerCounter = s.nativeTimerCounter ∧
    (clearTaskTimersList ts s).currentSchedulingMode = s.currentSchedulingMode ∧
    (clearTaskTimersList ts s).animationFrameId = s.animationFrameId ∧
    (clearTaskTimersList ts s).backgroundTickerId = s.backgroundTickerId ∧
    (clearTaskTimersList ts s).isOverridden = s.isOverridden ∧
    (clearTaskTimersList ts s).currentTasksPerFrame = s.currentTasksPerFrame ∧
    (clearTaskTimersList ts s).cfg = s.cfg ∧
    (∀ t ∈ ts, ∀ tid, t.nativeTimerId = some tid →
      ∀ nt ∈ (clearTaskTimersList ts s).nativeTimers, nt.timerId ≠ tid) ∧
    (∀ tid, (∀ nt ∈ s.nativeTimers, nt.timerId ≠ tid) →
      ∀ nt ∈ (clearTaskTimersList ts s).nativeTimers, nt.timerId ≠ tid) := by
  intro ts
  induction ts with
  | nil =>
    intro s
    refine ⟨List.Sublist.refl _, rfl, rfl, rfl, rfl, rfl, rfl, rfl, rfl, rfl, rfl,
      rfl, rfl, ?_, fun tid h => h⟩
    intro t ht
    exact nomatch ht
  | cons t ts ih =>
    intro s
    cases hnid : t.nativeTimerId with
    | none =>
      have heq : clearTaskTimersList (t :: ts) s = clearTaskTimersList ts s := by
        rw [clearTaskTimersList, hnid]
      rw [heq]
      obtain ⟨a, b, c, d, e, f, g, p8, p9, p10, p11, p12, p13, p14, p15⟩ := ih s
      refine ⟨a, b, c, d, e, f, g, p8, p9, p10, p11, p12, p13, ?_, p15⟩
      intro u hu tid htid
      rw [List.mem_cons] at hu
      cases hu with
      | inl h =>
        rw [h, hnid] at htid
        cases htid
      | inr h => exact p14 u h tid htid
    | some tid0 =>
      have heq : clearTaskTimersList (t :: ts) s =
          clearTaskTimersList ts (clearNativeTimer tid0 s) := by
        rw [clearTaskTimersList, hnid]
      rw [heq]
      obtain ⟨a, b, c, d, e, f, g, p8, p9, p10, p11, p12, p13, p14, p15⟩ :=
        ih (clearNativeTimer tid0 s)
      have hclean : ∀ nt ∈ (clearNativeTimer tid0 s).nativeTimers,
          nt.timerId ≠ tid0 := by
        intro nt hnt
        have hnt2 : nt ∈ s.nativeTimers.filter (fun u => u.timerId ≠ tid0) := hnt
        rw [List.mem_filter] at hnt2
        exact of_decide_eq_true hnt2.2
      refine ⟨a.trans (List.filter_sublist _), b, c, d, e, f, g, p8, p9, p10, p11,
        p12, p13, ?_, fun tid h => p15 tid (fun nt hnt =>
          h nt ((List.filter_sublist _).subset hnt))⟩
      intro u hu tid htid
      rw [List.mem_cons] at hu
      cases hu with
      | inl h =>
        rw [h, hnid] at htid
        cases htid
        exact p15 tid0 hclean
      | inr h => exact p14 u h tid htid

theorem restoreTimeouts_spec (s : EngineState) (hov : s.isOverridden = true) :
    (restoreTimeouts s).taskQueue = [] ∧
    lastPublished (restoreTimeouts s) = 0 ∧
    (restoreTimeouts s).currentSchedulingMode = Mode.idle ∧
    (restoreTimeouts s).animationFrameId = 0 ∧
    (restoreTimeouts s).backgroundTickerId = none ∧
    (restoreTimeouts s).isOverridden = false ∧
    invokesOf (restoreTimeouts s).events = invokesOf s.events ∧
    (restoreTimeouts s).taskIdCounter = s.taskIdCounter ∧
    (restoreTimeouts s).now = s.now ∧
    (restoreTimeouts s).cfg = s.cfg ∧
    (restoreTimeouts s).currentTasksPerFrame = s.currentTasksPerFrame ∧
    (∃ rem : List NativeTimer,
      List.Sublist rem s.nativeTimers ∧
      (restoreTimeouts s).nativeTimers =
        rem ++ mkHandoffTimers s.now s.nativeTimerCounter s.taskQueue ∧
      (∀ t ∈ s.taskQueue, ∀ tid, t.nativeTimerId = some tid →
        ∀ nt ∈ rem, nt.timerId ≠ tid) ∧
      (∀ tid, s.backgroundTickerId = some tid → ∀ nt ∈ rem, nt.timerId ≠ tid)) := by
  have hres : restoreTimeouts s =
      publishCount
        { rescheduleList (clearTaskTimersList (stopAllTickers s).taskQueue
            (stopAllTickers s)).now
            { clearTaskTimersList (stopAllTickers s).taskQueue (stopAllTickers s) with
                isOverridden := false }.taskQueue
            { clearTaskTimersList (stopAllTickers s).taskQueue (stopAllTickers s) with
                isOverridden := false } with
          taskQueue := []
          events := (rescheduleList (clearTaskTimersList (stopAllTickers s).taskQueue
              (stopAllTickers s)).now
              { clearTaskTimersList (stopAllTickers s).taskQueue (stopAllTickers s) with
                  isOverridden := false }.taskQueue
              { clearTaskTimersList (stopAllTickers s).taskQueue (stopAllTickers s) with
                  isOverridden := false }).events ++ [Event.clearE] } := by
    unfold restoreTimeouts
    rw [if_neg (by simp [hov])]
  obtain ⟨t1, t2, t3, t4, t5, t6, t7, t8, t9, t10, t11, t12, t13, t14, t15, t16,
    t17, t18⟩ := stopAllTickers_spec s
  obtain ⟨c1, c2, c3, c4, c5, c6, c7, c8, c9, c10, c11, c12, c13, c14, c15⟩ :=
    clearTaskTimersList_spec (stopAllTickers s).taskQueue (stopAllTickers s)
  obtain ⟨r1, r2, r3, r4, r5, r6, r7, r8, r9, r10, r11, r12⟩ :=
    rescheduleList_spec (clearTaskTimersList (stopAllTickers s).taskQueue
      (stopAllTickers s)).now
      { clearTaskTimersList (stopAllTickers s).taskQueue (stopAllTickers s) with
          isOverridden := false }.taskQueue
      { clearTaskTimersList (stopAllTickers s).taskQueue (stopAllTickers s) with
          isOverridden := false }
  rw [hres]
  refine ⟨rfl, rfl, ?_, ?_, ?_, ?_, ?_, ?_, ?_, ?_, ?_, ?_⟩
  · show (rescheduleList _ _ _).currentSchedulingMode = Mode.idle
    rw [r7]
    show (clearTaskTimersList _ _).currentSchedulingMode = Mode.idle
    rw [c8, t13]
  · show (rescheduleList _ _ _).animationFrameId = 0
    rw [r8]
    show (clearTaskTimersList _ _).animationFrameId = 0
    rw [c9, t14]
  · show (rescheduleList _ _ _).backgroundTickerId = none
    rw [r9]
    show (clearTaskTimersList _ _).backgroundTickerId = none
    rw [c10, t15]
  · show (rescheduleList _ _ _).isOverridden = false
    rw [r10]
  · show invokesOf ((rescheduleList _ _ _).events ++ [Event.clearE] ++
        [Event.publishE _]) = invokesOf s.events
    rw [invokesOf_append, invokesOf_append, r3]
    show invokesOf (clearTaskTimersList _ _).events ++ _ ++ _ = _
    rw [c3, t2]
    simp [invokesOf]
  · show (rescheduleList _ _ _).taskIdCounter = s.taskIdCounter
    rw [r6]
    show (clearTaskTimersList _ _).taskIdCounter = s.taskIdCounter
    rw [c6, t5]
  · show (rescheduleList _ _ _).now = s.now
    rw [r5]
    show (clearTaskTimersList _ _).now = s.now
    rw [c5, t4]
  · show (rescheduleList _ _ _).cfg = s.cfg
    rw [r12]
    show (clearTaskTimersList _ _).cfg = s.cfg
    rw [c13, t6]
  · show (rescheduleList _ _ _).currentTasksPerFrame = s.currentTasksPerFrame
    rw [r11]
    show (clearTaskTimersList _ _).currentTasksPerFrame = s.currentTasksPerFrame
    rw [c12, t7]
  · refine ⟨(clearTaskTimersList (stopAllTickers s).taskQueue
      (stopAllTickers s)).nativeTimers, c1.trans t11, ?_, ?_, ?_⟩
    · show (rescheduleList _ _ _).nativeTimers = _
      rw [r1]
      have hq : ({ clearTaskTimersList (stopAllTickers s).taskQueue (stopAllTickers s)
          with isOverridden := false }).taskQueue = s.taskQueue.map setAborted := by
        show (clearTaskTimersList _ _).taskQueue = _
        rw [c2, t18]
      rw [hq]
      have hcnt : ({ clearTaskTimersList (stopAllTickers s).taskQueue (stopAllTickers s)
          with isOverridden := false }).nativeTimerCounter = s.nativeTimerCounter := by
        show (clearTaskTimersList _ _).nativeTimerCounter = _
        rw [c7, t12]
      rw [hcnt]
      have hnow : (clearTaskTimersList (stopAllTickers s).taskQueue
          (stopAllTickers s)).now = s.now := by
        rw [c5, t4]
      rw [hnow, mkHandoffTimers_setAborted]
    · intro t ht tid htid nt hnt
      have ht2 : setAborted t ∈ (stopAllTickers s).taskQueue := by
        rw [t18]
        exact List.mem_map_of_mem setAborted ht
      have htid2 : (setAborted t).nativeTimerId = some tid := by
        rw [(setAborted_fields t).2.2.2.2]
        exact htid
      exact c14 (setAborted t) ht2 tid htid2 nt hnt
    · intro tid htid nt hnt
      refine c15 tid ?_ nt hnt
      intro nt2 hnt2
      exact t17 tid htid nt2 hnt2

theorem CbShrinks.crefl (s : EngineState) : CbShrinks s s :=
  ⟨List.Sublist.refl _, rfl, rfl, rfl, Or.inl rfl⟩

theorem CbShrinks.ctrans {s1 s2 s3 : EngineState}
    (h : CbShrinks s1 s2) (h' : CbShrinks s2 s3) : CbShrinks s1 s3 := by
  obtain ⟨a, b, c, d, e⟩ := h
  obtain ⟨a', b', c', d', e'⟩ := h'
  refine ⟨a'.trans a, b'.trans b, c'.trans c, d'.trans d, ?_⟩
  rcases e' with he' | he'
  · rcases e with he | he
    · exact Or.inl (he'.trans he)
    · exact Or.inr (he'.trans he)
  · exact Or.inr he'

theorem Shrinks.toCb {s s' : EngineState} (h : Shrinks s s') : CbShrinks s s' := by
  obtain ⟨a, _, c, d, e, f, _⟩ := h
  exact ⟨a, c, d, f, Or.inl e⟩

theorem restoreTimeouts_cmd (s : EngineState) :
    invokesOf (restoreTimeouts s).events = invokesOf s.events ∧
    (restoreTimeouts s).now = s.now ∧
    CbShrinks s (restoreTimeouts s) := by
  by_cases hov : s.isOverridden = true
  · obtain ⟨r1, _, r3, _, _, _, r7, r8, r9, r10, r11, _⟩ := restoreTimeouts_spec s hov
    refine ⟨r7, r9, ?_, r8, r10, r11, Or.inr r3⟩
    have hq : queueIds (restoreTimeouts s) = [] := by
      unfold queueIds
      rw [r1]
      rfl
    rw [hq]
    exact List.nil_sublist _
  · have hnoop : restoreTimeouts s = s := by
      unfold restoreTimeouts
      rw [if_pos hov]
    rw [hnoop]
    exact ⟨rfl, rfl, CbShrinks.crefl s⟩

theorem runCmd_spec (c : Cmd) (s : EngineState) :
    invokesOf (runCmd c s).events = invokesOf s.events ∧
    (runCmd c s).now = s.now ∧
    CbShrinks s (runCmd c s) := by
  cases c with
  | cancelC i =>
    obtain ⟨a, b, h⟩ := cancelTask_spec i s
    exact ⟨a, b, h.toCb⟩
  | nopC => exact ⟨rfl, rfl, CbShrinks.crefl s⟩
  | restoreC => exact restoreTimeouts_cmd s
  | destroyC => exact restoreTimeouts_cmd s

theorem runCmds_spec (cs : List Cmd) : ∀ s : EngineState,
    invokesOf (runCmds cs s).events = invokesOf s.events ∧
    (runCmds cs s).now = s.now ∧
    CbShrinks s (runCmds cs s) := by
  induction cs with
  | nil => exact fun s => ⟨rfl, rfl, CbShrinks.crefl s⟩
  | cons c cs ih =>
    intro s
    obtain ⟨a, b, h⟩ := runCmd_spec c s
    obtain ⟨a', b', h'⟩ := ih (runCmd c s)
    exact ⟨by rw [runCmds, a', a], by rw [runCmds, b', b], h.ctrans h'⟩

theorem Shrinks.now_update (s : EngineState) (v : Int) :
    Shrinks s { s with now := v } :=
  ⟨List.Sublist.refl _, List.Sublist.refl _, rfl, rfl, rfl, rfl, rfl, rfl, rfl,
    rfl, rfl, rfl, rfl, rfl⟩

theorem Shrinks.events_update (s : EngineState) (e : List Event) :
    Shrinks s { s with events := e } :=
  ⟨List.Sublist.refl _, List.Sublist.refl _, rfl, rfl, rfl, rfl, rfl, rfl, rfl,
    rfl, rfl, rfl, rfl, rfl⟩

theorem invokeTask_spec (t : ScheduledTask) (s : EngineState) :
    invokesOf (invokeTask t s).events = invokesOf s.events ++ [t.id] ∧
    (invokeTask t s).now = s.now + (t.callback.cost : Int) ∧
    CbShrinks s (invokeTask t s) := by
  set s1 : EngineState := { s with events := s.events ++ [Event.invokeE t.id] } with hs1
  have hit : invokeTask t s =
      { runCmds t.callback.prog s1 with
          now := (runCmds t.callback.prog s1).now + (t.callback.cost : Int) } := rfl
  have e1 : invokesOf s1.events = invokesOf s.events ++ [t.id] := by
    rw [hs1]; simp [invokesOf_append, invokesOf]
  obtain ⟨a, b, h⟩ := runCmds_spec t.callback.prog s1
  refine ⟨?_, ?_, ?_⟩
  · rw [hit]
    show invokesOf (runCmds t.callback.prog s1).events = _
    rw [a, e1]
  · rw [hit]
    show (runCmds t.callback.prog s1).now + (t.callback.cost : Int) = _
    rw [b]
  · rw [hit]
    exact ((Shrinks.events_update s _).toCb.ctrans h).ctrans
      (Shrinks.now_update _ _).toCb

theorem deleteTask_not_mem (id : Nat) (s : EngineState) :
    id ∉ queueIds (deleteTask id s) := by
  unfold deleteTask queueIds
  split
  · intro hmem
    simp only [List.mem_map, List.mem_filter] at hmem
    obtain ⟨u, ⟨_, hu⟩, hid⟩ := hmem
    simp [hid] at hu
  · intro hmem
    simp only [List.mem_map] at hmem
    obtain ⟨u, hu, hid⟩ := hmem
    next hany =>
      rw [List.any_eq_true] at hany
      exact hany ⟨u, hu, by simp [hid]⟩

theorem procOne_spec (t : ScheduledTask) (s : EngineState) :
    invokesOf (procOne t s).events = invokesOf s.events ++ [t.id] ∧
    (procOne t s).now = s.now + (t.callback.cost : Int) ∧
    CbShrinks s (procOne t s) ∧
    t.id ∉ queueIds (procOne t s) := by
  obtain ⟨a, b, h⟩ := invokeTask_spec t s
  obtain ⟨_, d2, d3, _, _, d6⟩ := deleteTask_spec t.id (invokeTask t s)
  refine ⟨?_, ?_, h.ctrans d6.toCb, deleteTask_not_mem t.id (invokeTask t s)⟩
  · show invokesOf (deleteTask t.id (invokeTask t s)).events = _
    rw [d2, a]
  · show (deleteTask t.id (invokeTask t s)).now = _
    rw [d3, b]

theorem processHigh_spec (budget : Nat) (ts : List ScheduledTask) :
    ∀ (s : EngineState) (n : Nat),
    invokesOf ((processHigh budget ts s n).1).events
      = invokesOf s.events ++ ((ts.take (budget - n)).map (fun t => t.id)) ∧
    ((processHigh budget ts s n).1).now = s.now + costSum (ts.take (budget - n)) ∧
    (processHigh budget ts s n).2 = n + min (budget - n) ts.length ∧
    CbShrinks s ((processHigh budget ts s n).1) ∧
    ∀ i ∈ (ts.take (budget - n)).map (fun t => t.id),
      i ∉ queueIds ((processHigh budget ts s n).1) := by
  induction ts with
  | nil =>
    intro s n
    refine ⟨by simp [processHigh], by simp [processHigh, costSum], by simp [processHigh],
      ?_, by simp⟩
    show CbShrinks s s
    exact CbShrinks.crefl s
  | cons t ts ih =>
    intro s n
    by_cases hb : budget ≤ n
    · have h0 : budget - n = 0 := Nat.sub_eq_zero_of_le hb
      rw [processHigh, if_pos hb, h0]
      refine ⟨by simp, by simp [costSum], by simp, CbShrinks.crefl s, by simp⟩
    · have hk : budget - n = (budget - (n + 1)) + 1 := by omega
      rw [processHigh, if_neg hb, hk]
      obtain ⟨a, b, c, d, e⟩ := ih (procOne t s) (n + 1)
      obtain ⟨pa, pb, pc, pd⟩ := procOne_spec t s
      refine ⟨?_, ?_, ?_, pc.ctrans d, ?_⟩
      · rw [a, pa, List.take_succ_cons, List.map_cons, List.append_assoc,
          List.singleton_append]
      · rw [b, pb, List.take_succ_cons, costSum]
        ring
      · rw [c, List.length_cons]
        omega
      · intro i hi
        rw [List.take_succ_cons, List.map_cons, List.mem_cons] at hi
        cases hi with
        | inl h =>
          subst h
          intro hmem
          exact pd (d.1.subset hmem)
        | inr h => exact e i h

theorem processLow_spec (budget : Nat) (budgetMs frameStart : Int)
    (ts : List ScheduledTask) : ∀ (s : EngineState) (n : Nat),
    invokesOf ((processLow budget budgetMs frameStart ts s n).1).events
      = invokesOf s.events ++
          ((selectLows budget budgetMs frameStart ts s.now n).map (fun t => t.id)) ∧
    ((processLow budget budgetMs frameStart ts s n).1).now
      = s.now + costSum (selectLows budget budgetMs frameStart ts s.now n) ∧
    (processLow budget budgetMs frameStart ts s n).2
      = n + (selectLows budget budgetMs frameStart ts s.now n).length ∧
    CbShrinks s ((processLow budget budgetMs frameStart ts s n).1) ∧
    ∀ i ∈ (selectLows budget budgetMs frameStart ts s.now n).map (fun t => t.id),
      i ∉ queueIds ((processLow budget budgetMs frameStart ts s n).1) := by
  induction ts with
  | nil =>
    intro s n
    refine ⟨by simp [processLow, selectLows], by simp [processLow, selectLows, costSum],
      by simp [processLow, selectLows], ?_, by simp [selectLows]⟩
    show CbShrinks s s
    exact CbShrinks.crefl s
  | cons t ts ih =>
    intro s n
    by_cases hstop : budgetMs ≤ s.now - frameStart ∨ budget ≤ n
    · rw [processLow, if_pos hstop, selectLows, if_pos hstop]
      refine ⟨by simp, by simp [costSum], by simp, CbShrinks.crefl s, by simp⟩
    · rw [processLow, if_neg hstop, selectLows, if_neg hstop]
      obtain ⟨a, b, c, d, e⟩ := ih (procOne t s) (n + 1)
      obtain ⟨pa, pb, pc, pd⟩ := procOne_spec t s
      rw [pb] at a b c e
      refine ⟨?_, ?_, ?_, pc.ctrans d, ?_⟩
      · rw [a, pa, List.map_cons, List.append_assoc, List.singleton_append]
      · rw [b, costSum]
        ring
      · rw [c, List.length_cons]
        omega
      · intro i hi
        rw [List.map_cons, List.mem_cons] at hi
        cases hi with
        | inl h =>
          subst h
          intro hmem
          exact pd (d.1.subset hmem)
        | inr h => exact e i h

theorem selectLows_take (budget : Nat) (budgetMs frameStart : Int) :
    ∀ (ts : List ScheduledTask) (now : Int) (n : Nat),
    ∃ k, selectLows budget budgetMs frameStart ts now n = ts.take k := by
  intro ts
  induction ts with
  | nil => exact fun now n => ⟨0, rfl⟩
  | cons t ts ih =>
    intro now n
    by_cases hstop : budgetMs ≤ now - frameStart ∨ budget ≤ n
    · exact ⟨0, by rw [selectLows, if_pos hstop]; rfl⟩
    · obtain ⟨k, hk⟩ := ih (now + (t.callback.cost : Int)) (n + 1)
      exact ⟨k + 1, by rw [selectLows, if_neg hstop, hk, List.take_succ_cons]⟩

theorem directIds_append (a b : List NativeTimer) :
    directIds (a ++ b) = directIds a ++ directIds b := by
  unfold directIds
  exact List.filterMap_append a b _

theorem directIds_tick_append (l : List NativeTimer) (a : Nat) (b c : Int) :
    directIds (l ++ [⟨a, b, c, NativePayload.tick⟩]) = directIds l := by
  rw [directIds_append]
  simp [directIds]

theorem cycleWrapUp_spec (frameStart : Int) (s2 : EngineState) :
    (cycleWrapUp frameStart s2).taskQueue = s2.taskQueue ∧
    invokesOf (cycleWrapUp frameStart s2).events = invokesOf s2.events ∧
    directIds (cycleWrapUp frameStart s2).nativeTimers = directIds s2.nativeTimers ∧
    (cycleWrapUp frameStart s2).taskIdCounter = s2.taskIdCounter ∧
    lastPublished (cycleWrapUp frameStart s2) = s2.taskQueue.length ∧
    (cycleWrapUp frameStart s2).currentTasksPerFrame =
      adjustFrameBudget s2.cfg.dynamicBudgetEnabled s2.currentSchedulingMode
        s2.cfg.frameTimeBudgetMs s2.cfg.maxTasksPerFrame s2.currentTasksPerFrame
        (s2.now - frameStart) := by
  simp only [cycleWrapUp]
  split
  · split
    · exact ⟨rfl, by simp [armRaf, publishCount, invokesOf_append, invokesOf], rfl, rfl,
        rfl, rfl⟩
    · split
      · refine ⟨rfl, by simp [armBackgroundTicker, publishCount, invokesOf_append, invokesOf],
          ?_, rfl, rfl, rfl⟩
        exact directIds_tick_append _ _ _ _
      · exact ⟨rfl, by simp [publishCount, invokesOf_append, invokesOf], rfl, rfl, rfl, rfl⟩
  · exact ⟨rfl, by simp [publishCount, invokesOf_append, invokesOf], rfl, rfl, rfl, rfl⟩

theorem count_ids_priority_partition (l : List ScheduledTask) (i : Nat) :
    ((l.filter (fun t => t.priority = TaskPriority.userVisible)).map
        (fun t => t.id)).count i
      + ((l.filter (fun t => t.priority = TaskPriority.background)).map
        (fun t => t.id)).count i
      = (l.map (fun t => t.id)).count i := by
  induction l with
  | nil => rfl
  | cons t ts ih =>
    cases hp : t.priority <;>
      simp only [List.filter_cons, hp, List.map_cons, List.count_cons, decide_True,
        decide_False, if_true, if_false, reduceCtorEq, List.map] <;>
      omega

theorem processRafQueue_noop (s : EngineState)
    (h : s.currentSchedulingMode ≠ Mode.rAF ∧ s.currentSchedulingMode ≠ Mode.timeout) :
    processRafQueue s = s := by
  unfold processRafQueue
  rw [if_pos h]

theorem adjustFrameBudget_idle (dyn : Bool) (budgetMs : Int) (maxT cur : Nat)
    (dur : Int) : adjustFrameBudget dyn Mode.idle budgetMs maxT cur dur = cur := by
  unfold adjustFrameBudget
  rw [if_pos (Or.inr (by decide))]

theorem adjustFrameBudget_self (dyn : Bool) (mode : Mode) (budgetMs : Int)
    (maxT cur : Nat) :
    adjustFrameBudget dyn mode budgetMs maxT cur budgetMs = cur := by
  unfold adjustFrameBudget
  split
  · rfl
  · rw [if_neg (fun hc => absurd hc.1 (lt_irrefl budgetMs)),
      if_neg (fun hc => absurd hc.1 (lt_irrefl budgetMs))]

theorem processRafQueue_spec (s : EngineState)
    (hmode : s.currentSchedulingMode = Mode.rAF ∨ s.currentSchedulingMode = Mode.timeout) :
    invokesOf (processRafQueue s).events = invokesOf s.events ++ cycleInvoked s ∧
    List.Sublist (queueIds (processRafQueue s)) (queueIds s) ∧
    (∀ i ∈ cycleInvoked s, i ∉ queueIds (processRafQueue s)) ∧
    (processRafQueue s).taskIdCounter = s.taskIdCounter ∧
    lastPublished (processRafQueue s) = (processRafQueue s).taskQueue.length ∧
    ((∃ dur, (processRafQueue s).currentTasksPerFrame =
        adjustFrameBudget s.cfg.dynamicBudgetEnabled s.currentSchedulingMode
          s.cfg.frameTimeBudgetMs s.cfg.maxTasksPerFrame s.currentTasksPerFrame dur) ∨
      (processRafQueue s).currentTasksPerFrame = s.currentTasksPerFrame) := by
  have hcond : ¬ (s.currentSchedulingMode ≠ Mode.rAF ∧
      s.currentSchedulingMode ≠ Mode.timeout) := by
    rcases hmode with h | h <;> simp [h]
  have hpr : processRafQueue s =
      cycleWrapUp s.now
        (processLow s.currentTasksPerFrame s.cfg.frameTimeBudgetMs s.now (cycleLows s)
          (processHigh s.currentTasksPerFrame (cycleHighs s) s 0).1
          (processHigh s.currentTasksPerFrame (cycleHighs s) s 0).2).1 := by
    rw [processRafQueue, if_neg hcond]
    rfl
  obtain ⟨h1a, h1b, h1c, h1d, h1e⟩ :=
    processHigh_spec s.currentTasksPerFrame (cycleHighs s) s 0
  rw [Nat.sub_zero] at h1a h1b h1c h1e
  rw [Nat.zero_add] at h1c
  obtain ⟨h2a, h2b, h2c, h2d, h2e⟩ :=
    processLow_spec s.currentTasksPerFrame s.cfg.frameTimeBudgetMs s.now (cycleLows s)
      (processHigh s.currentTasksPerFrame (cycleHighs s) s 0).1
      (processHigh s.currentTasksPerFrame (cycleHighs s) s 0).2
  have hsel : selectLows s.currentTasksPerFrame s.cfg.frameTimeBudgetMs s.now
      (cycleLows s) (processHigh s.currentTasksPerFrame (cycleHighs s) s 0).1.now
      (processHigh s.currentTasksPerFrame (cycleHighs s) s 0).2
      = cycleSelectedLows s := by
    rw [h1b, h1c]
    rfl
  rw [hsel] at h2a h2e
  obtain ⟨w1, w2, w3, w4, w5, w6⟩ := cycleWrapUp_spec s.now
    (processLow s.currentTasksPerFrame s.cfg.frameTimeBudgetMs s.now (cycleLows s)
      (processHigh s.currentTasksPerFrame (cycleHighs s) s 0).1
      (processHigh s.currentTasksPerFrame (cycleHighs s) s 0).2).1
  rw [hpr]
  obtain ⟨sub1q, c1cnt, c1cfg, c1f, c1m⟩ := h1d
  obtain ⟨sub2q, c2cnt, c2cfg, c2f, c2m⟩ := h2d
  refine ⟨?_, ?_, ?_, ?_, ?_, ?_⟩
  · rw [w2, h2a, h1a, cycleInvoked, List.append_assoc]
  · simp only [queueIds] at sub1q sub2q ⊢
    rw [w1]
    exact sub2q.trans sub1q
  · intro i hi
    simp only [queueIds] at h1e h2e sub2q ⊢
    rw [w1]
    rw [cycleInvoked, List.mem_append] at hi
    cases hi with
    | inl h => exact fun hmem => h1e i h (sub2q.subset hmem)
    | inr h => exact h2e i h
  · rw [w4, c2cnt, c1cnt]
  · rw [w5, w1]
  · rcases c2m with hm2 | hm2
    · rcases c1m with hm1 | hm1
      · refine Or.inl ⟨(processLow s.currentTasksPerFrame s.cfg.frameTimeBudgetMs
          s.now (cycleLows s)
          (processHigh s.currentTasksPerFrame (cycleHighs s) s 0).1
          (processHigh s.currentTasksPerFrame (cycleHighs s) s 0).2).1.now - s.now, ?_⟩
        rw [w6, c2cfg, c1cfg, hm2, hm1, c2f, c1f]
      · refine Or.inr ?_
        rw [w6, hm2, hm1, adjustFrameBudget_idle, c2f, c1f]
    · refine Or.inr ?_
      rw [w6, hm2, adjustFrameBudget_idle, c2f, c1f]

theorem SameButQueue.qrefl (s : EngineState) : SameButQueue s s :=
  ⟨rfl, rfl, rfl, rfl, rfl, rfl, rfl, rfl, rfl, rfl, rfl, rfl, rfl, rfl, rfl, rfl, rfl⟩

theorem SameButQueue.qtrans {s1 s2 s3 : EngineState}
    (h : SameButQueue s1 s2) (h' : SameButQueue s2 s3) : SameButQueue s1 s3 := by
  obtain ⟨a, b, c, d, e, f, g, p8, p9, p10, p11, p12, p13, p14, p15, p16, p17⟩ := h
  obtain ⟨a', b', c', d', e', f', g', q8, q9, q10, q11, q12, q13, q14, q15, q16, q17⟩ := h'
  exact ⟨a'.trans a, b'.trans b, c'.trans c, d'.trans d, e'.trans e, f'.trans f,
    g'.trans g, q8.trans p8, q9.trans p9, q10.trans p10, q11.trans p11,
    q12.trans p12, q13.trans p13, q14.trans p14, q15.trans p15, q16.trans p16,
    q17.trans p17⟩

theorem runTaskWithPostTask_sbq (t : ScheduledTask) (s : EngineState) :
    SameButQueue s (runTaskWithPostTask t s) := by
  unfold runTaskWithPostTask
  split
  · exact SameButQueue.qrefl s
  · split
    · exact SameButQueue.qrefl s
    · refine ⟨?_, rfl, rfl, rfl, rfl, rfl, rfl, rfl, rfl, rfl, rfl, rfl, rfl, rfl,
        rfl, rfl, rfl⟩
      show (s.taskQueue.map _).map taskCore = s.taskQueue.map taskCore
      rw [List.map_map]
      apply List.map_congr_left
      intro u _
      by_cases h : u.id = t.id <;> simp [h, taskCore]

theorem enrollList_sbq (ts : List ScheduledTask) : ∀ s : EngineState,
    SameButQueue s (enrollList ts s) := by
  induction ts with
  | nil => exact fun s => SameButQueue.qrefl s
  | cons t ts ih =>
    intro s
    rw [enrollList]
    split
    · exact (runTaskWithPostTask_sbq t s).qtrans (ih _)
    · exact ih s

theorem sat_eq_idle (s : EngineState)
    (h1 : ¬ s.taskQueue.any (fun t => t.batching) = true) :
    startAppropriateTicker s = { s with currentSchedulingMode := Mode.idle } := by
  unfold startAppropriateTicker
  rw [if_pos h1]

theorem sat_eq_resp (s : EngineState)
    (h1 : s.taskQueue.any (fun t => t.batching) = true)
    (h2 : s.cfg.primaryStrategy = Strategy.responsiveness ∧
      s.isPostTaskSupported = true) :
    startAppropriateTicker s =
      enrollList s.taskQueue { s with currentSchedulingMode := Mode.postTask } := by
  unfold startAppropriateTicker
  rw [if_neg (not_not_intro h1), if_pos h2]

theorem sat_eq_raf (s : EngineState)
    (h1 : s.taskQueue.any (fun t => t.batching) = true)
    (h2 : ¬ (s.cfg.primaryStrategy = Strategy.responsiveness ∧
      s.isPostTaskSupported = true))
    (h3 : ¬ s.hidden = true) :
    startAppropriateTicker s =
      armRaf { s with currentSchedulingMode := Mode.rAF } := by
  unfold startAppropriateTicker
  rw [if_neg (not_not_intro h1), if_neg h2, if_pos h3]

theorem sat_eq_hiddenPostTask (s : EngineState)
    (h1 : s.taskQueue.any (fun t => t.batching) = true)
    (h2 : ¬ (s.cfg.primaryStrategy = Strategy.responsiveness ∧
      s.isPostTaskSupported = true))
    (h3 : s.hidden = true) (h4 : s.isPostTaskSupported = true) :
    startAppropriateTicker s =
      enrollList s.taskQueue { s with currentSchedulingMode := Mode.postTask } := by
  unfold startAppropriateTicker
  rw [if_neg (not_not_intro h1), if_neg h2, if_neg (not_not_intro h3), if_pos h4]

theorem sat_eq_timeout (s : EngineState)
    (h1 : s.taskQueue.any (fun t => t.batching) = true)
    (h2 : ¬ (s.cfg.primaryStrategy = Strategy.responsiveness ∧
      s.isPostTaskSupported = true))
    (h3 : s.hidden = true) (h4 : ¬ s.isPostTaskSupported = true) :
    startAppropriateTicker s =
      armBackgroundTicker { s with currentSchedulingMode := Mode.timeout } := by
  unfold startAppropriateTicker
  rw [if_neg (not_not_intro h1), if_neg h2, if_neg (not_not_intro h3), if_neg h4]

theorem startAppropriateTicker_fields (s : EngineState) :
    (startAppropriateTicker s).taskQueue.map taskCore = s.taskQueue.map taskCore ∧
    (startAppropriateTicker s).events = s.events ∧
    (startAppropriateTicker s).published = s.published ∧
    (startAppropriateTicker s).now = s.now ∧
    (startAppropriateTicker s).taskIdCounter = s.taskIdCounter ∧
    (startAppropriateTicker s).cfg = s.cfg ∧
    (startAppropriateTicker s).currentTasksPerFrame = s.currentTasksPerFrame ∧
    (startAppropriateTicker s).isOverridden = s.isOverridden ∧
    (∀ nt ∈ (startAppropriateTicker s).nativeTimers,
       nt ∈ s.nativeTimers ∨ nt.payload = NativePayload.tick) ∧
    directIds (startAppropriateTicker s).nativeTimers = directIds s.nativeTimers := by
  by_cases h1 : s.taskQueue.any (fun t => t.batching) = true
  · by_cases h2 : s.cfg.primaryStrategy = Strategy.responsiveness ∧
        s.isPostTaskSupported = true
    · rw [sat_eq_resp s h1 h2]
      obtain ⟨a, b, c, d, e, f, g, p8, p9, p10, p11, p12, p13, p14, p15, p16, p17⟩ :=
        enrollList_sbq s.taskQueue { s with currentSchedulingMode := Mode.postTask }
      exact ⟨a, b, c, d, e, p10, p9, p11, fun nt hmem => Or.inl (f ▸ hmem), by rw [f]⟩
    · by_cases h3 : s.hidden = true
      · by_cases h4 : s.isPostTaskSupported = true
        · rw [sat_eq_hiddenPostTask s h1 h2 h3 h4]
          obtain ⟨a, b, c, d, e, f, g, p8, p9, p10, p11, p12, p13, p14, p15, p16, p17⟩ :=
            enrollList_sbq s.taskQueue { s with currentSchedulingMode := Mode.postTask }
          exact ⟨a, b, c, d, e, p10, p9, p11, fun nt hmem => Or.inl (f ▸ hmem), by rw [f]⟩
        · rw [sat_eq_timeout s h1 h2 h3 h4]
          refine ⟨rfl, rfl, rfl, rfl, rfl, rfl, rfl, rfl, ?_,
            directIds_tick_append _ _ _ _⟩
          intro nt hmem
          have hmem2 : nt ∈ s.nativeTimers ++
              [⟨s.nativeTimerCounter, s.cfg.backgroundTickInterval, s.now,
                NativePayload.tick⟩] := hmem
          rw [List.mem_append] at hmem2
          cases hmem2 with
          | inl h => exact Or.inl h
          | inr h =>
            rw [List.mem_singleton] at h
            exact Or.inr (by rw [h])
      · rw [sat_eq_raf s h1 h2 h3]
        exact ⟨rfl, rfl, rfl, rfl, rfl, rfl, rfl, rfl, fun nt hmem => Or.inl hmem, rfl⟩
  · rw [sat_eq_idle s h1]
    exact ⟨rfl, rfl, rfl, rfl, rfl, rfl, rfl, rfl, fun nt hmem => Or.inl hmem, rfl⟩

theorem startAppropriateTicker_mode (s : EngineState) :
    (startAppropriateTicker s).currentSchedulingMode =
      specModeSelector (s.taskQueue.any (fun t => t.batching)) s.cfg.primaryStrategy
        s.isPostTaskSupported (!s.hidden) := by
  by_cases h1 : s.taskQueue.any (fun t => t.batching) = true
  · by_cases h2 : s.cfg.primaryStrategy = Strategy.responsiveness ∧
        s.isPostTaskSupported = true
    · rw [sat_eq_resp s h1 h2,
        (enrollList_sbq s.taskQueue
          { s with currentSchedulingMode := Mode.postTask }).2.2.2.2.2.2.2.1]
      unfold specModeSelector
      rw [if_neg (not_not_intro h1), if_pos h2]
    · by_cases h3 : s.hidden = true
      · by_cases h4 : s.isPostTaskSupported = true
        · rw [sat_eq_hiddenPostTask s h1 h2 h3 h4,
            (enrollList_sbq s.taskQueue
              { s with currentSchedulingMode := Mode.postTask }).2.2.2.2.2.2.2.1]
          unfold specModeSelector
          rw [if_neg (not_not_intro h1), if_neg h2, if_neg (by simp [h3]), if_pos h4]
        · rw [sat_eq_timeout s h1 h2 h3 h4]
          unfold specModeSelector
          rw [if_neg (not_not_intro h1), if_neg h2, if_neg (by simp [h3]), if_neg h4]
          rfl
      · rw [sat_eq_raf s h1 h2 h3]
        unfold specModeSelector
        rw [if_neg (not_not_intro h1), if_neg h2, if_pos (by simp [h3])]
        rfl
  · rw [sat_eq_idle s h1]
    unfold specModeSelector
    rw [if_pos h1]

theorem startAppropriateTicker_timeoutArm (s : EngineState)
    (h : specModeSelector (s.taskQueue.any (fun t => t.batching)) s.cfg.primaryStrategy
        s.isPostTaskSupported (!s.hidden) = Mode.timeout) :
    (startAppropriateTicker s).backgroundTickerId = some s.nativeTimerCounter ∧
    (⟨s.nativeTimerCounter, s.cfg.backgroundTickInterval, s.now,
      NativePayload.tick⟩ : NativeTimer) ∈ (startAppropriateTicker s).nativeTimers := by
  by_cases h1 : s.taskQueue.any (fun t => t.batching) = true
  · by_cases h2 : s.cfg.primaryStrategy = Strategy.responsiveness ∧
        s.isPostTaskSupported = true
    · exfalso
      unfold specModeSelector at h
      rw [if_neg (not_not_intro h1), if_pos h2] at h
      cases h
    · by_cases h3 : s.hidden = true
      · by_cases h4 : s.isPostTaskSupported = true
        · exfalso
          unfold specModeSelector at h
          rw [if_neg (not_not_intro h1), if_neg h2, if_neg (by simp [h3]), if_pos h4] at h
          cases h
        · rw [sat_eq_timeout s h1 h2 h3 h4]
          exact ⟨rfl, List.mem_append_right _ (List.mem_singleton.mpr rfl)⟩
      · exfalso
        unfold specModeSelector at h
        rw [if_neg (not_not_intro h1), if_neg h2, if_pos (by simp [h3])] at h
        cases h
  · exfalso
    unfold specModeSelector at h
    rw [if_pos h1] at h
    cases h

theorem directIds_exec_append (l : List NativeTimer) (a : Nat) (b c : Int) (i : Nat) :
    directIds (l ++ [⟨a, b, c, NativePayload.execTask i⟩]) = directIds l := by
  rw [directIds_append]
  simp [directIds]

theorem length_eq_of_core_map {q q' : List ScheduledTask}
    (h : q'.map taskCore = q.map taskCore) : q'.length = q.length := by
  have := congrArg List.length h
  simpa using this

theorem scheduleTask_spec (cb : Cb) (opts : TaskOptionsInput) (s : EngineState) :
    (∃ t : ScheduledTask, t ∈ (scheduleTask cb opts s).1.taskQueue ∧
      t.id = (scheduleTask cb opts s).2 ∧
      t.executeAt = s.now + coerceDelay opts.delay) ∧
    (scheduleTask cb opts s).2 = s.taskIdCounter + 1 ∧
    (scheduleTask cb opts s).1.taskQueue.map taskCore
      = s.taskQueue.map taskCore ++
        [(s.taskIdCounter + 1, s.now + coerceDelay opts.delay,
          opts.priority.getD TaskPriority.userVisible, opts.batching.getD true)] ∧
    invokesOf (scheduleTask cb opts s).1.events = invokesOf s.events ∧
    (scheduleTask cb opts s).1.taskIdCounter = s.taskIdCounter + 1 ∧
    (scheduleTask cb opts s).1.now = s.now ∧
    lastPublished (scheduleTask cb opts s).1 =
      (scheduleTask cb opts s).1.taskQueue.length ∧
    directIds (scheduleTask cb opts s).1.nativeTimers = directIds s.nativeTimers ∧
    (∀ nt ∈ (scheduleTask cb opts s).1.nativeTimers,
       nt ∈ s.nativeTimers ∨ (∃ i, nt.payload = NativePayload.execTask i) ∨
         nt.payload = NativePayload.tick) := by
  set task : ScheduledTask :=
    { id := s.taskIdCounter + 1, callback := cb,
      executeAt := s.now + coerceDelay opts.delay, args := []
      priority := opts.priority.getD TaskPriority.userVisible
      batching := opts.batching.getD true
      nativeTimerId := if opts.batching.getD true then none else some s.nativeTimerCounter
      postTaskAborted := none } with htask
  set s2 : EngineState := publishCount
    { s with taskIdCounter := s.taskIdCounter + 1, taskQueue := s.taskQueue ++ [task]
             events := s.events ++
               [Event.insertE (s.taskIdCounter + 1) (s.taskQueue ++ [task]).length] }
    with hs2
  have hsched : scheduleTask cb opts s =
      (if ¬ opts.batching.getD true = true then
        ({ s2 with nativeTimerCounter := s.nativeTimerCounter + 1
                   nativeTimers := s2.nativeTimers ++
                     [⟨s.nativeTimerCounter, coerceDelay opts.delay, s.now,
                       NativePayload.execTask (s.taskIdCounter + 1)⟩] },
          s.taskIdCounter + 1)
      else if s2.currentSchedulingMode = Mode.idle ∧ 0 < (s.taskQueue ++ [task]).length then
        (startAppropriateTicker s2, s.taskIdCounter + 1)
      else if s2.currentSchedulingMode = Mode.postTask then
        (runTaskWithPostTask task s2, s.taskIdCounter + 1)
      else (s2, s.taskIdCounter + 1)) := rfl
  have hs2core : s2.taskQueue.map taskCore = s.taskQueue.map taskCore ++
      [(s.taskIdCounter + 1, s.now + coerceDelay opts.delay,
        opts.priority.getD TaskPriority.userVisible, opts.batching.getD true)] := by
    rw [hs2]
    show (s.taskQueue ++ [task]).map taskCore = _
    rw [List.map_append]
    rfl
  have hs2inv : invokesOf s2.events = invokesOf s.events := by
    rw [hs2]
    show invokesOf ((s.events ++ [Event.insertE _ _]) ++ [Event.publishE _]) = _
    rw [invokesOf_append, invokesOf_append]
    simp [invokesOf]
  have hmemOf : ∀ (q2 : List ScheduledTask),
      q2.map taskCore = s.taskQueue.map taskCore ++
        [(s.taskIdCounter + 1, s.now + coerceDelay opts.delay,
          opts.priority.getD TaskPriority.userVisible, opts.batching.getD true)] →
      ∃ t : ScheduledTask, t ∈ q2 ∧ t.id = s.taskIdCounter + 1 ∧
        t.executeAt = s.now + coerceDelay opts.delay := by
    intro q2 hcore
    have hmem : (s.taskIdCounter + 1, s.now + coerceDelay opts.delay,
        opts.priority.getD TaskPriority.userVisible, opts.batching.getD true)
          ∈ q2.map taskCore := by
      rw [hcore]
      exact List.mem_append_right _ (List.mem_singleton.mpr rfl)
    obtain ⟨t, ht, hct⟩ := List.mem_map.mp hmem
    unfold taskCore at hct
    rw [Prod.mk.injEq, Prod.mk.injEq, Prod.mk.injEq] at hct
    exact ⟨t, ht, hct.1, hct.2.1⟩
  rw [hsched]
  by_cases hB : opts.batching.getD true = true
  · rw [if_neg (by simp [hB])]
    by_cases hIdle : s2.currentSchedulingMode = Mode.idle ∧
        0 < (s.taskQueue ++ [task]).length
    · rw [if_pos hIdle]
      obtain ⟨a, b, c, d, e, f, g, p8, p9, p10⟩ := startAppropriateTicker_fields s2
      have hcore : (startAppropriateTicker s2).taskQueue.map taskCore = _ :=
        a.trans hs2core
      refine ⟨hmemOf _ hcore, rfl, hcore, by rw [b, hs2inv], e, d, ?_, ?_, ?_⟩
      · show lastPublished (startAppropriateTicker s2) = _
        have hlen := length_eq_of_core_map a
        have : lastPublished (startAppropriateTicker s2) = lastPublished s2 := by
          unfold lastPublished
          rw [c]
        rw [this, hlen]
        rfl
      · rw [p10]
        rfl
      · intro nt hnt
        rcases p9 nt hnt with h | h
        · exact Or.inl h
        · exact Or.inr (Or.inr h)
    · rw [if_neg hIdle]
      by_cases hPT : s2.currentSchedulingMode = Mode.postTask
      · rw [if_pos hPT]
        obtain ⟨a, b, c, d, e, f, g, p8, p9, p10, p11, p12, p13, p14, p15, p16, p17⟩ :=
          runTaskWithPostTask_sbq task s2
        have hcore : (runTaskWithPostTask task s2).taskQueue.map taskCore = _ :=
          a.trans hs2core
        refine ⟨hmemOf _ hcore, rfl, hcore, by rw [b, hs2inv], e, d, ?_,
          by rw [f]; rfl, ?_⟩
        · show lastPublished (runTaskWithPostTask task s2) = _
          have hlen := length_eq_of_core_map a
          have hc : lastPublished (runTaskWithPostTask task s2) = lastPublished s2 := by
            unfold lastPublished
            rw [c]
          rw [hc, hlen]
          rfl
        · intro nt hnt
          rw [f] at hnt
          exact Or.inl hnt
      · rw [if_neg hPT]
        refine ⟨hmemOf _ hs2core, rfl, hs2core, hs2inv,
          rfl, rfl, rfl, rfl, fun nt hnt => Or.inl hnt⟩
  · rw [if_pos (by simp [hB])]
    refine ⟨hmemOf _ hs2core, rfl, hs2core, hs2inv, rfl, rfl, rfl, ?_, ?_⟩
    · exact directIds_exec_append _ _ _ _ _
    · intro nt hnt
      have hnt2 : nt ∈ s2.nativeTimers ++
          [⟨s.nativeTimerCounter, coerceDelay opts.delay, s.now,
            NativePayload.execTask (s.taskIdCounter + 1)⟩] := hnt
      rw [List.mem_append] at hnt2
      cases hnt2 with
      | inl h => exact Or.inl h
      | inr h =>
        rw [List.mem_singleton] at h
        exact Or.inr (Or.inl ⟨s.taskIdCounter + 1, by rw [h]⟩)

/-- C4: whenever the Mode Selector (startAppropriateTicker) runs, the
chosen mode follows exactly the claimed decision order: idle when no
batched tasks remain; else cooperative when the strategy is
responsiveness and scheduler.postTask is available, regardless of
visibility; else frame-paced when the document is visible; else
cooperative if available, otherwise the interval fallback, armed with
the configured tick interval whose default is 250ms. -/
theorem claim_C4_mode_selector :
    (∀ s : EngineState,
      (startAppropriateTicker s).currentSchedulingMode =
        specModeSelector (s.taskQueue.any (fun t => t.batching))
          s.cfg.primaryStrategy s.isPostTaskSupported (!s.hidden)) ∧
    (∀ s : EngineState,
      specModeSelector (s.taskQueue.any (fun t => t.batching))
          s.cfg.primaryStrategy s.isPostTaskSupported (!s.hidden) = Mode.timeout →
      (startAppropriateTicker s).backgroundTickerId = some s.nativeTimerCounter ∧
      (⟨s.nativeTimerCounter, s.cfg.backgroundTickInterval, s.now,
        NativePayload.tick⟩ : NativeTimer) ∈ (startAppropriateTicker s).nativeTimers) ∧
    (resolveConfig noConfig).backgroundTickInterval = 250 :=
  ⟨startAppropriateTicker_mode, startAppropriateTicker_timeoutArm, rfl⟩

/-- C4 witness: on a hidden document without the cooperative primitive
and one batched task pending, the selector picks the interval fallback
and arms the background ticker. -/
theorem claim_C4_mode_selector_witness :
    (startAppropriateTicker c4State).currentSchedulingMode =
      specModeSelector (c4State.taskQueue.any (fun t => t.batching))
        c4State.cfg.primaryStrategy c4State.isPostTaskSupported (!c4State.hidden) ∧
    (startAppropriateTicker c4State).backgroundTickerId =
      some c4State.nativeTimerCounter ∧
    specModeSelector (c4State.taskQueue.any (fun t => t.batching))
      c4State.cfg.primaryStrategy c4State.isPostTaskSupported (!c4State.hidden) =
      Mode.timeout :=
  ⟨claim_C4_mode_selector.1 c4State,
   (claim_C4_mode_selector.2.1 c4State (by decide)).1, by decide⟩

/-- C6: with dynamic budgeting enabled in frame-paced mode, after each
cycle currentTasksPerFrame is updated exactly as claimed: an over-budget
cycle with value above 1 multiplies by 0.9 and floors (never below 1,
strictly decreasing), an under-budget cycle below the ceiling adds 1
(never above maxTasksPerFrame); sustained over-budget cycles reach
exactly 1, sustained under-budget cycles reach exactly the ceiling, and
the value stays within the interval from 1 to maxTasksPerFrame. -/
theorem claim_C6_budget_convergence :
    (∀ s : EngineState, ∃ dur : Int,
      (processRafQueue s).currentTasksPerFrame =
        adjustFrameBudget s.cfg.dynamicBudgetEnabled s.currentSchedulingMode
          s.cfg.frameTimeBudgetMs s.cfg.maxTasksPerFrame s.currentTasksPerFrame dur) ∧
    (∀ (budgetMs : Int) (maxT cur : Nat) (dur : Int), budgetMs < dur → 1 < cur →
      adjustFrameBudget true Mode.rAF budgetMs maxT cur dur = max 1 ((9 * cur) / 10) ∧
      adjustFrameBudget true Mode.rAF budgetMs maxT cur dur < cur ∧
      1 ≤ adjustFrameBudget true Mode.rAF budgetMs maxT cur dur) ∧
    (∀ (budgetMs : Int) (maxT : Nat) (dur : Int), budgetMs < dur →
      adjustFrameBudget true Mode.rAF budgetMs maxT 1 dur = 1) ∧
    (∀ (budgetMs : Int) (maxT : Nat) (dur : Int), budgetMs < dur →
      ∀ (k cur : Nat), 1 ≤ cur → cur ≤ k + 1 →
        (fun c => adjustFrameBudget true Mode.rAF budgetMs maxT c dur)^[k] cur = 1) ∧
    (∀ (budgetMs : Int) (maxT cur : Nat) (dur : Int), dur < budgetMs → cur < maxT →
      adjustFrameBudget true Mode.rAF budgetMs maxT cur dur = cur + 1) ∧
    (∀ (budgetMs : Int) (maxT cur : Nat) (dur : Int), dur < budgetMs → maxT ≤ cur →
      adjustFrameBudget true Mode.rAF budgetMs maxT cur dur = cur) ∧
    (∀ (budgetMs : Int) (maxT : Nat) (dur : Int), dur < budgetMs →
      ∀ (k cur : Nat), maxT ≤ cur + k → cur ≤ maxT →
        (fun c => adjustFrameBudget true Mode.rAF budgetMs maxT c dur)^[k] cur = maxT) ∧
    (∀ (dyn : Bool) (mode : Mode) (budgetMs : Int) (maxT cur : Nat) (dur : Int),
      1 ≤ cur → cur ≤ maxT →
      1 ≤ adjustFrameBudget dyn mode budgetMs maxT cur dur ∧
      adjustFrameBudget dyn mode budgetMs maxT cur dur ≤ maxT) := by
  have hshrink : ∀ (budgetMs : Int) (maxT cur : Nat) (dur : Int),
      budgetMs < dur → 1 < cur →
      adjustFrameBudget true Mode.rAF budgetMs maxT cur dur = max 1 ((9 * cur) / 10) := by
    intro budgetMs maxT cur dur h1 h2
    unfold adjustFrameBudget
    rw [if_neg (by simp), if_pos ⟨h1, h2⟩]
  have hone : ∀ (budgetMs : Int) (maxT : Nat) (dur : Int), budgetMs < dur →
      adjustFrameBudget true Mode.rAF budgetMs maxT 1 dur = 1 := by
    intro budgetMs maxT dur h1
    unfold adjustFrameBudget
    rw [if_neg (by simp), if_neg (by omega), if_neg (by omega)]
  have hstep2 : ∀ (budgetMs : Int) (maxT cur : Nat) (dur : Int),
      budgetMs < dur → 1 < cur →
      adjustFrameBudget true Mode.rAF budgetMs maxT cur dur = max 1 ((9 * cur) / 10) ∧
      adjustFrameBudget true Mode.rAF budgetMs maxT cur dur < cur ∧
      1 ≤ adjustFrameBudget true Mode.rAF budgetMs maxT cur dur := by
    intro budgetMs maxT cur dur h1 h2
    rw [hshrink budgetMs maxT cur dur h1 h2]
    omega
  have hgrow : ∀ (budgetMs : Int) (maxT cur : Nat) (dur : Int),
      dur < budgetMs → cur < maxT →
      adjustFrameBudget true Mode.rAF budgetMs maxT cur dur = cur + 1 := by
    intro budgetMs maxT cur dur h1 h2
    unfold adjustFrameBudget
    rw [if_neg (by simp), if_neg (by omega), if_pos ⟨h1, h2⟩]
    omega
  have hcap : ∀ (budgetMs : Int) (maxT cur : Nat) (dur : Int),
      dur < budgetMs → maxT ≤ cur →
      adjustFrameBudget true Mode.rAF budgetMs maxT cur dur = cur := by
    intro budgetMs maxT cur dur h1 h2
    unfold adjustFrameBudget
    rw [if_neg (by simp), if_neg (by omega), if_neg (by omega)]
  refine ⟨?_, hstep2, hone, ?_, hgrow, hcap, ?_, ?_⟩
  · intro s
    cases hm : s.currentSchedulingMode with
    | rAF =>
      have h := (processRafQueue_spec s (Or.inl hm)).2.2.2.2.2
      rcases h with ⟨dur, hd⟩ | hsame
      · exact ⟨dur, by rwa [hm] at hd⟩
      · refine ⟨s.cfg.frameTimeBudgetMs, ?_⟩
        rw [hsame, adjustFrameBudget_self]
    | timeout =>
      have h := (processRafQueue_spec s (Or.inr hm)).2.2.2.2.2
      rcases h with ⟨dur, hd⟩ | hsame
      · exact ⟨dur, by rwa [hm] at hd⟩
      · refine ⟨s.cfg.frameTimeBudgetMs, ?_⟩
        rw [hsame, adjustFrameBudget_self]
    | postTask =>
      refine ⟨0, ?_⟩
      rw [processRafQueue_noop s (by rw [hm]; exact ⟨by simp, by simp⟩)]
      unfold adjustFrameBudget
      rw [if_pos (Or.inr (by simp))]
    | idle =>
      refine ⟨0, ?_⟩
      rw [processRafQueue_noop s (by rw [hm]; exact ⟨by simp, by simp⟩)]
      unfold adjustFrameBudget
      rw [if_pos (Or.inr (by simp))]
  · intro budgetMs maxT dur h1 k
    induction k with
    | zero =>
      intro cur hc1 hc2
      have : cur = 1 := by omega
      rw [this]
      rfl
    | succ k ih =>
      intro cur hc1 hc2
      rw [Function.iterate_succ_apply]
      by_cases h2 : 1 < cur
      · obtain ⟨_, hlt, hge⟩ := hstep2 budgetMs maxT cur dur h1 h2
        exact ih _ hge (by omega)
      · have : cur = 1 := by omega
        rw [this, hone budgetMs maxT dur h1]
        exact ih 1 (by omega) (by omega)
  · intro budgetMs maxT dur h1 k
    induction k with
    | zero =>
      intro cur hc1 hc2
      have : cur = maxT := by omega
      rw [this]
      rfl
    | succ k ih =>
      intro cur hc1 hc2
      rw [Function.iterate_succ_apply]
      by_cases h2 : cur < maxT
      · rw [hgrow budgetMs maxT cur dur h1 h2]
        exact ih (cur + 1) (by omega) (by omega)
      · rw [hcap budgetMs maxT cur dur h1 (by omega)]
        exact ih cur (by omega) hc2
  · intro dyn mode budgetMs maxT cur dur hc1 hc2
    unfold adjustFrameBudget
    split
    · omega
    · split
      · omega
      · split
        · omega
        · omega

/-- C6 witness: at the default configuration an over-budget 9ms cycle
shrinks the budget of 50 to 45, 49 over-budget cycles pin it at 1, an
under-budget cycle grows 50 to 51, and 100 under-budget cycles pin it
at the ceiling 150. -/
theorem claim_C6_budget_convergence_witness :
    (fun c => adjustFrameBudget true Mode.rAF 8 150 c 9)^[49] 50 = 1 ∧
    adjustFrameBudget true Mode.rAF 8 150 50 7 = 50 + 1 ∧
    (fun c => adjustFrameBudget true Mode.rAF 8 150 c 7)^[100] 50 = 150 ∧
    adjustFrameBudget true Mode.rAF 8 150 50 9 = max 1 ((9 * 50) / 10) :=
  ⟨claim_C6_budget_convergence.2.2.2.1 8 150 9 (by decide) 49 50 (by decide) (by decide),
   claim_C6_budget_convergence.2.2.2.2.1 8 150 50 7 (by decide) (by decide),
   claim_C6_budget_convergence.2.2.2.2.2.2.1 8 150 7 (by decide) 100 50 (by decide)
     (by decide),
   (claim_C6_budget_convergence.2.1 8 150 50 9 (by decide) (by decide)).1⟩

/-- C7 counterexample: a delay of -5 is not coerced to a non-negative
number: the coercion returns -5 itself and scheduling with it stores an
executeAt of now - 5. -/
theorem claim_C7_counterexample :
    coerceDelay (some (JSNum.num (-5))) = -5 ∧
    ¬ (0 ≤ coerceDelay (some (JSNum.num (-5)))) ∧
    ((scheduleTask nopCb ⟨some (JSNum.num (-5)), none, none⟩
        (initEngine noConfig false false)).1.taskQueue.map
      (fun t => t.executeAt)) = [-5] := by decide

/-- C7 (amended): the delay option is coerced to a number before
computing executeAt: a missing, invalid or NaN delay becomes 0, a
finite numeric delay (zero or not, negative included) passes through
unchanged, executeAt is now plus the coerced delay, and scheduleTask is
total (never throws) on every delay input. -/
theorem claim_C7_delay_coercion :
    coerceDelay none = 0 ∧
    coerceDelay (some JSNum.nan) = 0 ∧
    (∀ n : Int, coerceDelay (some (JSNum.num n)) = n) ∧
    (∀ (cb : Cb) (opts : TaskOptionsInput) (s : EngineState),
      ∃ t : ScheduledTask, t ∈ (scheduleTask cb opts s).1.taskQueue ∧
        t.id = (scheduleTask cb opts s).2 ∧
        t.executeAt = s.now + coerceDelay opts.delay) := by
  refine ⟨rfl, rfl, ?_, ?_⟩
  · intro n
    show (if n = 0 then 0 else n) = n
    by_cases h : n = 0
    · rw [if_pos h, h]
    · rw [if_neg h]
  · intro cb opts s
    obtain ⟨hw, _⟩ := scheduleTask_spec cb opts s
    exact hw

/-- C9 counterexample: on a host with window and the performance API but
without requestAnimationFrame, construction succeeds, contradicting the
claim that a missing frame-pacing primitive makes the constructor raise. -/
theorem claim_C9_counterexample :
    (constructScheduler ⟨true, true, false, false, false⟩ noConfig).isSome = true ∧
    HostCaps.hasRAF ⟨true, true, false, false, false⟩ = false := by decide

/-- C9 (amended): the constructor raises an error synchronously if and
only if window or the performance API is missing; the
requestAnimationFrame primitive is not checked at construction. -/
theorem claim_C9_construction :
    ∀ (h : HostCaps) (c : SchedulerConfigInput),
      constructScheduler h c = none ↔
        (h.hasWindow = false ∨ h.hasPerformance = false) := by
  intro h c
  obtain ⟨hw, hp, hr, pt, dh⟩ := h
  cases hw <;> cases hp <;> simp [constructScheduler, initEngine]

/-- C9 witness: with window itself missing the constructor raises. -/
theorem claim_C9_construction_witness :
    constructScheduler ⟨false, true, true, false, false⟩ noConfig = none :=
  (claim_C9_construction ⟨false, true, true, false, false⟩ noConfig).mpr (Or.inl rfl)

/-- C10: when isOverridden is false, restoreTimeouts returns immediately
leaving the whole engine state unchanged (no task re-registered or
removed, no driver stopped, no count published), and destroy on such an
engine only completes the count channel. -/
theorem claim_C10_restore_noop :
    ∀ s : EngineState, s.isOverridden = false →
      restoreTimeouts s = s ∧ destroy s = { s with completed := true } := by
  intro s h
  have hr : restoreTimeouts s = s := by
    unfold restoreTimeouts
    rw [if_pos (by simp [h])]
  refine ⟨hr, ?_⟩
  unfold destroy
  rw [hr]

/-- C10 witness: on a fresh engine that never intercepted the globals,
restoreTimeouts is an identity. -/
theorem claim_C10_restore_noop_witness :
    restoreTimeouts (initEngine noConfig false false) =
      initEngine noConfig false false :=
  (claim_C10_restore_noop (initEngine noConfig false false) rfl).1

theorem selectLows_guard (budget : Nat) (budgetMs frameStart : Int) :
    ∀ (ts : List ScheduledTask) (now : Int) (n k : Nat),
    k < (selectLows budget budgetMs frameStart ts now n).length →
    (now + costSum ((selectLows budget budgetMs frameStart ts now n).take k))
        - frameStart < budgetMs ∧
      n + k < budget := by
  intro ts
  induction ts with
  | nil =>
    intro now n k hk
    rw [selectLows] at hk
    simp at hk
  | cons t ts ih =>
    intro now n k hk
    by_cases hstop : budgetMs ≤ now - frameStart ∨ budget ≤ n
    · rw [selectLows, if_pos hstop] at hk
      simp at hk
    · rw [selectLows, if_neg hstop] at hk ⊢
      push_neg at hstop
      cases k with
      | zero =>
        rw [List.take_zero, costSum]
        omega
      | succ j =>
        rw [List.length_cons] at hk
        obtain ⟨g1, g2⟩ := ih (now + (t.callback.cost : Int)) (n + 1) j (by omega)
        rw [List.take_succ_cons, costSum]
        constructor
        · have : now + ((t.callback.cost : Int) +
              costSum ((selectLows budget budgetMs frameStart ts
                (now + (t.callback.cost : Int)) (n + 1)).take j)) =
              now + (t.callback.cost : Int) +
              costSum ((selectLows budget budgetMs frameStart ts
                (now + (t.callback.cost : Int)) (n + 1)).take j) := by ring
          rw [this]
          exact g1
        · omega

theorem cycleSelectedLows_sub (s : EngineState) :
    ∀ t ∈ cycleSelectedLows s, t ∈ cycleLows s := by
  intro t ht
  obtain ⟨k, hk⟩ := selectLows_take s.currentTasksPerFrame s.cfg.frameTimeBudgetMs
    s.now (cycleLows s)
    (s.now + costSum ((cycleHighs s).take s.currentTasksPerFrame))
    (min s.currentTasksPerFrame (cycleHighs s).length)
  rw [cycleSelectedLows] at ht
  rw [hk] at ht
  exact List.take_subset _ _ ht

/-- C5: within any Execution Cycle whose due-set holds both priorities,
with task-count budget B = currentTasksPerFrame: the invoked sequence is
the due high-priority tasks up to B followed by the guard-admitted
low-priority tasks, so the first min(B, number of due high-priority
tasks) callbacks executed are all high-priority; and every executed
low-priority task passed, at the point it was considered, the strict
checks elapsed < frameTimeBudgetMs and executed-count < B. -/
theorem claim_C5_priority_order :
    ∀ s : EngineState,
    (s.currentSchedulingMode = Mode.rAF ∨ s.currentSchedulingMode = Mode.timeout) →
    cycleHighs s ≠ [] → cycleLows s ≠ [] →
    (invokesOf (processRafQueue s).events = invokesOf s.events ++ cycleInvoked s ∧
     (cycleInvoked s).take (min s.currentTasksPerFrame (cycleHighs s).length) =
       ((cycleHighs s).take s.currentTasksPerFrame).map (fun t => t.id) ∧
     (∀ t ∈ (cycleHighs s).take s.currentTasksPerFrame,
        t.priority = TaskPriority.userVisible) ∧
     (∀ t ∈ cycleSelectedLows s, t.priority = TaskPriority.background) ∧
     (∀ k, k < (cycleSelectedLows s).length →
        (s.now + costSum ((cycleHighs s).take s.currentTasksPerFrame) +
            costSum ((cycleSelectedLows s).take k)) - s.now <
          s.cfg.frameTimeBudgetMs ∧
        min s.currentTasksPerFrame (cycleHighs s).length + k <
          s.currentTasksPerFrame)) := by
  intro s hmode _ _
  refine ⟨(processRafQueue_spec s hmode).1, ?_, ?_, ?_, ?_⟩
  · rw [cycleInvoked]
    have hlen : (((cycleHighs s).take s.currentTasksPerFrame).map
        (fun t => t.id)).length = min s.currentTasksPerFrame (cycleHighs s).length := by
      rw [List.length_map, List.length_take]
    rw [← hlen, List.take_left]
  · intro t ht
    have ht2 : t ∈ cycleHighs s := List.take_subset _ _ ht
    rw [cycleHighs, List.mem_filter] at ht2
    exact of_decide_eq_true ht2.2
  · intro t ht
    have ht2 : t ∈ cycleLows s := cycleSelectedLows_sub s t ht
    rw [cycleLows, List.mem_filter] at ht2
    exact of_decide_eq_true ht2.2
  · intro k hk
    have h := selectLows_guard s.currentTasksPerFrame s.cfg.frameTimeBudgetMs s.now
      (cycleLows s) (s.now + costSum ((cycleHighs s).take s.currentTasksPerFrame))
      (min s.currentTasksPerFrame (cycleHighs s).length) k hk
    exact h

/-- C5 witness: in the concrete frame-paced state with one due task of
each priority and budget 50, the cycle invokes the high-priority task
first and the invoked prefix of length min(50, 1) is exactly it. -/
theorem claim_C5_priority_order_witness :
    invokesOf (processRafQueue c5State).events =
      invokesOf c5State.events ++ cycleInvoked c5State ∧
    (cycleInvoked c5State).take
        (min c5State.currentTasksPerFrame (cycleHighs c5State).length) =
      ((cycleHighs c5State).take c5State.currentTasksPerFrame).map (fun t => t.id) ∧
    cycleInvoked c5State = [1, 2] :=
  ⟨(claim_C5_priority_order c5State (Or.inl rfl) (by decide) (by decide)).1,
   (claim_C5_priority_order c5State (Or.inl rfl) (by decide) (by decide)).2.1,
   by decide⟩

theorem fireNative_eq_none (tid : Nat) (s : EngineState)
    (hf : s.nativeTimers.find? (fun nt => nt.timerId = tid) = none) :
    fireNative tid s = s := by
  unfold fireNative
  rw [hf]

theorem fireNative_eq_pending (tid : Nat) (s : EngineState) (nt : NativeTimer)
    (hf : s.nativeTimers.find? (fun nt => nt.timerId = tid) = some nt)
    (hg : s.now < nt.armedAt + max 0 nt.delay) :
    fireNative tid s = s := by
  unfold fireNative
  rw [hf]
  exact if_pos hg

theorem fireNative_eq_fire (tid : Nat) (s : EngineState) (nt : NativeTimer)
    (hf : s.nativeTimers.find? (fun nt => nt.timerId = tid) = some nt)
    (hg : ¬ s.now < nt.armedAt + max 0 nt.delay) :
    fireNative tid s = runPayload nt.payload (clearNativeTimer tid s) := by
  unfold fireNative
  rw [hf]
  exact if_neg hg

theorem executeTaskImmediately_eq_none (id : Nat) (s : EngineState)
    (hf : findTask id s = none) : executeTaskImmediately id s = s := by
  unfold executeTaskImmediately
  rw [hf]

theorem executeTaskImmediately_eq_some (id : Nat) (s : EngineState)
    (t : ScheduledTask) (hf : findTask id s = some t) :
    executeTaskImmediately id s = publishCount (deleteTask id (invokeTask t s)) := by
  unfold executeTaskImmediately
  rw [hf]

theorem postTaskDispatch_eq_none (id : Nat) (s : EngineState)
    (hf : findTask id s = none) : postTaskDispatch id s = s := by
  unfold postTaskDispatch
  rw [hf]

theorem postTaskDispatch_eq_skip (id : Nat) (s : EngineState) (t : ScheduledTask)
    (hf : findTask id s = some t)
    (hc : ¬ (t.batching = true ∧ t.postTaskAborted = some false)) :
    postTaskDispatch id s = s := by
  unfold postTaskDispatch
  rw [hf]
  exact if_neg hc

theorem postTaskDispatch_eq_run (id : Nat) (s : EngineState) (t : ScheduledTask)
    (hf : findTask id s = some t)
    (hc : t.batching = true ∧ t.postTaskAborted = some false) :
    postTaskDispatch id s = executeTaskImmediately id s := by
  unfold postTaskDispatch
  rw [hf]
  exact if_pos hc

theorem publishCount_pubok (s : EngineState) : PubOK (publishCount s) := rfl

theorem cancelTask_pubok (id : Nat) (s : EngineState) (h : PubOK s) :
    PubOK (cancelTask id s) := by
  unfold cancelTask
  cases findTask id s with
  | none => exact h
  | some t => exact publishCount_pubok _

theorem restoreTimeouts_pubok (s : EngineState) (h : PubOK s) :
    PubOK (restoreTimeouts s) := by
  unfold restoreTimeouts
  split
  · exact h
  · exact publishCount_pubok _

theorem runCmds_pubok (cs : List Cmd) : ∀ s : EngineState, PubOK s →
    PubOK (runCmds cs s) := by
  induction cs with
  | nil => exact fun s h => h
  | cons c cs ih =>
    intro s h
    refine ih (runCmd c s) ?_
    cases c with
    | cancelC i => exact cancelTask_pubok i s h
    | nopC => exact h
    | restoreC => exact restoreTimeouts_pubok s h
    | destroyC => exact restoreTimeouts_pubok s h

theorem invokeTask_pubok (t : ScheduledTask) (s : EngineState) (h : PubOK s) :
    PubOK (invokeTask t s) := by
  have h1 : PubOK { s with events := s.events ++ [Event.invokeE t.id] } := h
  have h2 := runCmds_pubok t.callback.prog _ h1
  exact h2

theorem executeTaskImmediately_pubok (id : Nat) (s : EngineState) (h : PubOK s) :
    PubOK (executeTaskImmediately id s) := by
  unfold executeTaskImmediately
  cases findTask id s with
  | none => exact h
  | some t => exact publishCount_pubok _

theorem processRafQueue_pubok (s : EngineState) (h : PubOK s) :
    PubOK (processRafQueue s) := by
  by_cases hm : s.currentSchedulingMode = Mode.rAF ∨
      s.currentSchedulingMode = Mode.timeout
  · exact (processRafQueue_spec s hm).2.2.2.2.1
  · rw [processRafQueue_noop s (by constructor <;> (intro hc; exact hm (by simp [hc])))]
    exact h

theorem handleVisibilityChange_pubok (s : EngineState) (h : PubOK s) :
    PubOK (handleVisibilityChange s) := by
  unfold handleVisibilityChange
  have h1 : PubOK (stopAllTickers s) := by
    obtain ⟨a, b, c, _⟩ := stopAllTickers_spec s
    show lastPublished _ = _
    unfold lastPublished
    rw [c, length_eq_of_core_map a]
    exact h
  obtain ⟨a2, b2, c2, _⟩ := startAppropriateTicker_fields (stopAllTickers s)
  show lastPublished _ = _
  unfold lastPublished
  rw [c2, length_eq_of_core_map a2]
  exact h1

theorem step_pubok (op : Op) (s : EngineState) (h : PubOK s) : PubOK (step op s) := by
  cases op with
  | scheduleOp cb opts =>
    have hs := (scheduleTask_spec cb opts s).2.2.2.2.2.2.1
    exact hs
  | cancelOp id => exact cancelTask_pubok id s h
  | runCycleOp => exact processRafQueue_pubok s h
  | fireNativeOp tid =>
    show PubOK (fireNative tid s)
    cases hf : s.nativeTimers.find? (fun nt => nt.timerId = tid) with
    | none => rw [fireNative_eq_none tid s hf]; exact h
    | some nt =>
      by_cases hg : s.now < nt.armedAt + max 0 nt.delay
      · rw [fireNative_eq_pending tid s nt hf hg]
        exact h
      · rw [fireNative_eq_fire tid s nt hf hg]
        have hclear : PubOK (clearNativeTimer tid s) := h
        cases nt.payload with
        | execTask i => exact executeTaskImmediately_pubok i _ hclear
        | direct i cb a =>
          have h2 : PubOK { clearNativeTimer tid s with
              events := (clearNativeTimer tid s).events ++ [Event.invokeE i] } := hclear
          have h3 := runCmds_pubok cb.prog _ h2
          exact h3
        | tick => exact processRafQueue_pubok _ hclear
  | postTaskDispatchOp id =>
    show PubOK (postTaskDispatch id s)
    cases hf : findTask id s with
    | none => rw [postTaskDispatch_eq_none id s hf]; exact h
    | some t =>
      by_cases hc : t.batching = true ∧ t.postTaskAborted = some false
      · rw [postTaskDispatch_eq_run id s t hf hc]
        exact executeTaskImmediately_pubok id s h
      · rw [postTaskDispatch_eq_skip id s t hf hc]
        exact h
  | postTaskFailOp id => exact publishCount_pubok _
  | visibilityOp hid =>
    exact handleVisibilityChange_pubok { s with hidden := hid } h
  | overrideOp =>
    show PubOK (overrideTimeouts s)
    unfold overrideTimeouts
    split
    · exact h
    · exact h
  | restoreOp => exact restoreTimeouts_pubok s h
  | advanceOp d => exact h

theorem runOps_pubok (ops : List Op) : ∀ s : EngineState, PubOK s →
    PubOK (runOps ops s) := by
  induction ops with
  | nil => exact fun s h => h
  | cons op ops ih => exact fun s h => ih (step op s) (step_pubok op s h)

/-- C2 counterexample: in a two-task Execution Cycle the registry
mutates twice (one removal per executed task) but the pending count is
published only once, after the whole pass: the trace shows the first
removal followed by the next invocation with no intervening
publication, so not every mutation is synchronously published. -/
theorem claim_C2_counterexample :
    syncPublished (runOps c2Ops (initEngine noConfig false false)).events = false ∧
    (runOps c2Ops (initEngine noConfig false false)).events =
      [Event.insertE 1 1, Event.publishE 1, Event.insertE 2 2, Event.publishE 2,
       Event.invokeE 1, Event.removeE 1 1, Event.invokeE 2, Event.removeE 2 0,
       Event.publishE 0] := by decide

/-- C2 (amended): scheduleTask's insertion, cancelTask's removal, the
non-batched and cooperative-dispatch removal paths and restoreTimeouts'
clear each publish the new registry size synchronously, but an
Execution Cycle publishes only once, after all of its per-task
removals; hence at the end of every engine operation (though not
between the removals inside one cycle) the most recently published
count equals the registry's cardinality. -/
theorem claim_C2_pending_count :
    ∀ (h : HostCaps) (c : SchedulerConfigInput) (s0 : EngineState) (ops : List Op),
      constructScheduler h c = some s0 →
      lastPublished (runOps ops s0) = (runOps ops s0).taskQueue.length := by
  intro h c s0 ops hcon
  refine runOps_pubok ops s0 ?_
  unfold constructScheduler at hcon
  split at hcon
  · cases hcon
  · cases hcon
    show PubOK (initEngine c _ _)
    unfold initEngine
    exact handleVisibilityChange_pubok _ rfl

/-- C2 witness: after two schedules and a cycle from a fresh engine, the
last published count equals the (now empty) registry's size. -/
theorem claim_C2_pending_count_witness :
    lastPublished (runOps c2Ops (initEngine noConfig false false)) =
      (runOps c2Ops (initEngine noConfig false false)).taskQueue.length :=
  claim_C2_pending_count ⟨true, true, true, false, false⟩ noConfig
    (initEngine noConfig false false) c2Ops rfl

theorem isDirectFor_true (id : Nat) (nt : NativeTimer) :
    isDirectFor id nt = true ↔
      ∃ cb a, nt.payload = NativePayload.direct id cb a := by
  obtain ⟨t0, d0, a0, p0⟩ := nt
  cases p0 with
  | execTask i => simp [isDirectFor]
  | direct i cb a =>
    simp only [isDirectFor, NativePayload.direct.injEq, decide_eq_true_eq]
    constructor
    · intro h
      exact ⟨cb, a, h, rfl, rfl⟩
    · intro h
      obtain ⟨cb2, a2, h1, _, _⟩ := h
      exact h1
  | tick => simp [isDirectFor]

theorem mem_directIds (l : List NativeTimer) (nt : NativeTimer) (i : Nat) (cb : Cb)
    (a : List Int) (h : nt ∈ l) (hp : nt.payload = NativePayload.direct i cb a) :
    i ∈ directIds l := by
  unfold directIds
  rw [List.mem_filterMap]
  refine ⟨nt, h, ?_⟩
  rw [hp]

theorem mkHandoffTimers_exists (now : Int) :
    ∀ (q : List ScheduledTask) (cnt : Nat), ∀ t ∈ q,
    ∃ nt ∈ mkHandoffTimers now cnt q,
      nt.payload = NativePayload.direct t.id t.callback t.args ∧
      nt.delay = max 0 (t.executeAt - now) ∧ nt.armedAt = now := by
  intro q
  induction q with
  | nil => intro cnt t ht; cases ht
  | cons u ts ih =>
    intro cnt t ht
    rw [List.mem_cons] at ht
    cases ht with
    | inl h =>
      refine ⟨⟨cnt, max 0 (u.executeAt - now), now,
        NativePayload.direct u.id u.callback u.args⟩, ?_, ?_, ?_, rfl⟩
      · rw [mkHandoffTimers]
        exact List.mem_cons_self _ _
      · rw [h]
      · rw [h]
    | inr h =>
      obtain ⟨nt, hnt, p1, p2, p3⟩ := ih (cnt + 1) t h
      refine ⟨nt, ?_, p1, p2, p3⟩
      rw [mkHandoffTimers]
      exact List.mem_cons_of_mem _ hnt

theorem mkHandoffTimers_find (now : Int) :
    ∀ (q : List ScheduledTask) (cnt : Nat), ∀ nt ∈ mkHandoffTimers now cnt q,
    (mkHandoffTimers now cnt q).find? (fun u => u.timerId = nt.timerId) = some nt := by
  intro q
  induction q with
  | nil => intro cnt nt hnt; cases hnt
  | cons t ts ih =>
    intro cnt nt hnt
    rw [mkHandoffTimers] at hnt ⊢
    rw [List.mem_cons] at hnt
    cases hnt with
    | inl h =>
      subst h
      exact List.find?_cons_of_pos _ (by simp)
    | inr h =>
      obtain ⟨u, hu, _, _, _, hge⟩ := mkHandoffTimers_mem now ts (cnt + 1) nt h
      rw [List.find?_cons_of_neg _ (by
        simp only [decide_eq_true_eq]
        show ¬ cnt = nt.timerId
        omega)]
      exact ih (cnt + 1) nt h

theorem runCmd_notov (c : Cmd) (s : EngineState) (h : s.isOverridden = false) :
    (runCmd c s).isOverridden = false ∧
    List.Sublist (runCmd c s).nativeTimers s.nativeTimers := by
  cases c with
  | cancelC i =>
    obtain ⟨_, _, hsh⟩ := cancelTask_spec i s
    obtain ⟨_, hsub, _, _, _, _, _, _, hov, _, _, _, _, _⟩ := hsh
    exact ⟨hov.trans h, hsub⟩
  | nopC => exact ⟨h, List.Sublist.refl _⟩
  | restoreC =>
    have hnoop : restoreTimeouts s = s := by
      unfold restoreTimeouts
      rw [if_pos (by simp [h])]
    show (restoreTimeouts s).isOverridden = false ∧
      List.Sublist (restoreTimeouts s).nativeTimers s.nativeTimers
    rw [hnoop]
    exact ⟨h, List.Sublist.refl _⟩
  | destroyC =>
    have hnoop : restoreTimeouts s = s := by
      unfold restoreTimeouts
      rw [if_pos (by simp [h])]
    show (destroy s).isOverridden = false ∧
      List.Sublist (destroy s).nativeTimers s.nativeTimers
    unfold destroy
    rw [hnoop]
    exact ⟨h, List.Sublist.refl _⟩

theorem runCmds_notov (cs : List Cmd) : ∀ s : EngineState,
    s.isOverridden = false →
    (runCmds cs s).isOverridden = false ∧
    List.Sublist (runCmds cs s).nativeTimers s.nativeTimers := by
  induction cs with
  | nil => exact fun s h => ⟨h, List.Sublist.refl _⟩
  | cons c cs ih =>
    intro s h
    obtain ⟨h1, h2⟩ := runCmd_notov c s h
    obtain ⟨h3, h4⟩ := ih (runCmd c s) h1
    exact ⟨h3, h4.trans h2⟩

theorem runPayload_direct (i : Nat) (cb : Cb) (a : List Int) (s : EngineState) :
    invokesOf (runPayload (NativePayload.direct i cb a) s).events =
      invokesOf s.events ++ [i] ∧
    (s.isOverridden = false →
      List.Sublist (runPayload (NativePayload.direct i cb a) s).nativeTimers
        s.nativeTimers) := by
  have hrp : runPayload (NativePayload.direct i cb a) s =
      { runCmds cb.prog { s with events := s.events ++ [Event.invokeE i] } with
          now := (runCmds cb.prog
            { s with events := s.events ++ [Event.invokeE i] }).now +
            (cb.cost : Int) } := rfl
  obtain ⟨hev, hnow, hsh⟩ :=
    runCmds_spec cb.prog { s with events := s.events ++ [Event.invokeE i] }
  constructor
  · rw [hrp]
    show invokesOf (runCmds cb.prog _).events = _
    rw [hev]
    show invokesOf (s.events ++ [Event.invokeE i]) = _
    rw [invokesOf_append]
    rfl
  · intro hov
    rw [hrp]
    show List.Sublist (runCmds cb.prog _).nativeTimers s.nativeTimers
    exact (runCmds_notov cb.prog
      { s with events := s.events ++ [Event.invokeE i] } hov).2

/-- C3: when restoreTimeouts runs on an overridden engine whose registry
holds distinct task ids, with no pre-existing handoff timer for a
registered id and all armed host timer ids below the allocation counter,
then: all drivers are stopped (mode idle, the frame handle and interval
ticker cleared) and the interception flag drops; the registry is emptied
and pending count 0 is published; the restore itself invokes no
callback; every pending task (batched or not) is re-registered on the
native delayed-invocation primitive exactly once, with remaining delay
max 0 (executeAt - now), its original callback and its original
arguments; and the host's firing rule for that task's handoff timer is a
no-op strictly before now + remaining delay, while firing at any later
time invokes the task's callback exactly once (the trace gains exactly
that one invocation) and consumes the timer. -/
theorem claim_C3_teardown_handoff (s : EngineState)
    (hov : s.isOverridden = true)
    (hnodup : (queueIds s).Nodup)
    (hnodir : ∀ t ∈ s.taskQueue, t.id ∉ directIds s.nativeTimers)
    (htid : ∀ nt ∈ s.nativeTimers, nt.timerId < s.nativeTimerCounter) :
    (restoreTimeouts s).taskQueue = [] ∧
    lastPublished (restoreTimeouts s) = 0 ∧
    (restoreTimeouts s).currentSchedulingMode = Mode.idle ∧
    (restoreTimeouts s).animationFrameId = 0 ∧
    (restoreTimeouts s).backgroundTickerId = none ∧
    (restoreTimeouts s).isOverridden = false ∧
    invokesOf (restoreTimeouts s).events = invokesOf s.events ∧
    (∀ t ∈ s.taskQueue,
      ((restoreTimeouts s).nativeTimers.filter (isDirectFor t.id)).length = 1) ∧
    (∀ t ∈ s.taskQueue, ∃ nt : NativeTimer,
      (restoreTimeouts s).nativeTimers.find?
        (fun u => u.timerId = nt.timerId) = some nt ∧
      nt.payload = NativePayload.direct t.id t.callback t.args ∧
      nt.delay = max 0 (t.executeAt - s.now) ∧
      nt.armedAt = s.now ∧
      (∀ d : Int, d < s.now + max 0 (t.executeAt - s.now) →
        fireNative nt.timerId { restoreTimeouts s with now := d } =
          { restoreTimeouts s with now := d }) ∧
      (∀ d : Int, s.now + max 0 (t.executeAt - s.now) ≤ d →
        invokesOf (fireNative nt.timerId
            { restoreTimeouts s with now := d }).events =
          invokesOf s.events ++ [t.id] ∧
        (fireNative nt.timerId
            { restoreTimeouts s with now := d }).nativeTimers.find?
          (fun u => u.timerId = nt.timerId) = none)) := by
  obtain ⟨h1, h2, h3, h4, h5, h6, h7, _, _, _, _, rem, hremsub, hfin, _, _⟩ :=
    restoreTimeouts_spec s hov
  refine ⟨h1, h2, h3, h4, h5, h6, h7, ?_, ?_⟩
  · intro t ht
    rw [hfin, List.filter_append, List.length_append]
    have hrem0 : rem.filter (isDirectFor t.id) = [] := by
      rw [List.filter_eq_nil_iff]
      intro nt hnt hdir
      obtain ⟨cb, a, hp⟩ := (isDirectFor_true t.id nt).mp hdir
      exact hnodir t ht
        (mem_directIds s.nativeTimers nt t.id cb a (hremsub.subset hnt) hp)
    rw [hrem0, mkHandoffTimers_filter_count]
    have hcount : (s.taskQueue.map (fun t => t.id)).count t.id = 1 :=
      List.count_eq_one_of_mem hnodup (List.mem_map_of_mem _ ht)
    rw [hcount]
    rfl
  · intro t ht
    obtain ⟨nt, hntmem, hpay, hdel, harm⟩ :=
      mkHandoffTimers_exists s.now s.taskQueue s.nativeTimerCounter t ht
    obtain ⟨u0, _, _, _, _, hge⟩ :=
      mkHandoffTimers_mem s.now s.taskQueue s.nativeTimerCounter nt hntmem
    have hfind : (restoreTimeouts s).nativeTimers.find?
        (fun u => u.timerId = nt.timerId) = some nt := by
      rw [hfin, List.find?_append]
      have hremn : rem.find? (fun u => u.timerId = nt.timerId) = none := by
        rw [List.find?_eq_none]
        intro x hx
        have hxlt := htid x (hremsub.subset hx)
        simp only [decide_eq_true_eq]
        omega
      rw [hremn, mkHandoffTimers_find s.now s.taskQueue s.nativeTimerCounter nt hntmem]
      rfl
    refine ⟨nt, hfind, hpay, hdel, harm, ?_, ?_⟩
    · intro d hd
      refine fireNative_eq_pending nt.timerId
        { restoreTimeouts s with now := d } nt hfind ?_
      show d < nt.armedAt + max 0 nt.delay
      rw [harm, hdel]
      omega
    · intro d hd
      have hfire : fireNative nt.timerId { restoreTimeouts s with now := d } =
          runPayload nt.payload
            (clearNativeTimer nt.timerId { restoreTimeouts s with now := d }) := by
        refine fireNative_eq_fire nt.timerId _ nt hfind ?_
        show ¬ d < nt.armedAt + max 0 nt.delay
        rw [harm, hdel]
        omega
      obtain ⟨hinv, hsub⟩ := runPayload_direct t.id t.callback t.args
        (clearNativeTimer nt.timerId { restoreTimeouts s with now := d })
      constructor
      · rw [hfire, hpay, hinv]
        show invokesOf (restoreTimeouts s).events ++ [t.id] = _
        rw [h7]
      · rw [hfire, hpay, List.find?_eq_none]
        intro x hx
        have hx2 : x ∈ (restoreTimeouts s).nativeTimers.filter
            (fun u => u.timerId ≠ nt.timerId) := (hsub h6).subset hx
        rw [List.mem_filter] at hx2
        have hne := of_decide_eq_true hx2.2
        simp only [decide_eq_true_eq]
        exact hne

/-- C3 witness: on the concrete overridden engine with a batched and a
non-batched pending task, restore empties the registry, publishes 0,
drops the flag and leaves exactly one handoff timer per task. -/
theorem claim_C3_teardown_handoff_witness :
    c3State.isOverridden = true ∧
    (restoreTimeouts c3State).taskQueue = [] ∧
    lastPublished (restoreTimeouts c3State) = 0 ∧
    (restoreTimeouts c3State).isOverridden = false ∧
    ((restoreTimeouts c3State).nativeTimers.filter (isDirectFor 1)).length = 1 ∧
    ((restoreTimeouts c3State).nativeTimers.filter (isDirectFor 2)).length = 1 := by
  obtain ⟨h1, h2, _, _, _, h6, _, h8, _⟩ :=
    claim_C3_teardown_handoff c3State (by decide) (by decide) (by decide) (by decide)
  refine ⟨by decide, h1, h2, h6, ?_, ?_⟩
  · exact h8 ⟨1, nopCb, 100, [], TaskPriority.userVisible, true, none, none⟩ (by decide)
  · exact h8 ⟨2, nopCb, 30, [], TaskPriority.userVisible, false, some 1, none⟩ (by decide)

theorem invokesOf_publishCount (s : EngineState) :
    invokesOf (publishCount s).events = invokesOf s.events := by
  show invokesOf (s.events ++ [Event.publishE s.taskQueue.length]) = _
  rw [invokesOf_append]
  simp [invokesOf]

theorem cycleInvoked_subset (s : EngineState) :
    ∀ i ∈ cycleInvoked s, i ∈ queueIds s := by
  intro i hi
  rw [cycleInvoked, List.mem_append] at hi
  cases hi with
  | inl h =>
    obtain ⟨t, ht, hid⟩ := List.mem_map.mp h
    have ht2 : t ∈ cycleHighs s := List.take_subset _ _ ht
    rw [cycleHighs] at ht2
    have ht3 : t ∈ dueTasks s := List.mem_of_mem_filter ht2
    rw [dueTasks] at ht3
    have ht4 : t ∈ s.taskQueue := List.mem_of_mem_filter ht3
    rw [← hid]
    exact List.mem_map_of_mem _ ht4
  | inr h =>
    obtain ⟨t, ht, hid⟩ := List.mem_map.mp h
    have ht2 : t ∈ cycleLows s := cycleSelectedLows_sub s t ht
    rw [cycleLows] at ht2
    have ht3 : t ∈ dueTasks s := List.mem_of_mem_filter ht2
    rw [dueTasks] at ht3
    have ht4 : t ∈ s.taskQueue := List.mem_of_mem_filter ht3
    rw [← hid]
    exact List.mem_map_of_mem _ ht4

theorem cycleInvoked_count (s : EngineState) (i : Nat) :
    (cycleInvoked s).count i ≤ (queueIds s).count i := by
  rw [cycleInvoked, List.count_append]
  have h1 : (((cycleHighs s).take s.currentTasksPerFrame).map
      (fun t => t.id)).count i ≤ ((cycleHighs s).map (fun t => t.id)).count i :=
    ((List.take_sublist _ _).map _).count_le i
  have h2 : ((cycleSelectedLows s).map (fun t => t.id)).count i ≤
      ((cycleLows s).map (fun t => t.id)).count i := by
    obtain ⟨k, hk⟩ := selectLows_take s.currentTasksPerFrame s.cfg.frameTimeBudgetMs
      s.now (cycleLows s)
      (s.now + costSum ((cycleHighs s).take s.currentTasksPerFrame))
      (min s.currentTasksPerFrame (cycleHighs s).length)
    rw [cycleSelectedLows, hk]
    exact ((List.take_sublist _ _).map _).count_le i
  have h3 : ((cycleHighs s).map (fun t => t.id)).count i
      + ((cycleLows s).map (fun t => t.id)).count i
      = ((dueTasks s).map (fun t => t.id)).count i :=
    count_ids_priority_partition (dueTasks s) i
  have h4 : ((dueTasks s).map (fun t => t.id)).count i ≤ (queueIds s).count i := by
    rw [dueTasks]
    exact (queueIds_filter_sublist _ _).count_le i
  omega

/-- C1 counterexample: first, task 1's callback cancels task 2 while
the running Execution Cycle's due-task snapshot already contains task 2,
and the trace shows a completed cancelTask for id 2 followed by the
invocation of task 2's callback; second, at-most-once fails outright: on
an overridden engine a task whose callback re-enters restoreTimeouts is
still registered when its callback runs, so the restore re-registers it
on a native handoff timer while the cycle invokes it, and firing that
timer invokes the same callback a second time (two invocations of
task 1). -/
theorem claim_C1_counterexample :
    hasCancelThenInvoke 2
      (runOps c1Ops (initEngine noConfig false false)).events = true ∧
    invCount 1 (runOps c1bOps (initEngine noConfig false false)).events = 2 := by
  decide

/-- C1 (amended): cancellation that precedes the dispatch looking the
task up guarantees zero further executions: an Execution Cycle changes
no id's invocation count when the id is absent from the registry at the
cycle's start, the non-batched wrapper and the cooperative dispatch are
exact no-ops for unregistered ids, and a single cycle adds at most one
invocation per id when the registry's ids are distinct.  (Unconditional
at-most-once does not hold: see the counterexample's re-entrant-restore
run, and cancellation from inside the same cycle whose snapshot already
holds the task does not prevent the invocation.) -/
theorem claim_C1_cancel_execution :
    (∀ (s : EngineState) (i : Nat), i ∉ queueIds s →
      invCount i (processRafQueue s).events = invCount i s.events) ∧
    (∀ (s : EngineState) (i : Nat), i ∉ queueIds s →
      executeTaskImmediately i s = s) ∧
    (∀ (s : EngineState) (i : Nat), i ∉ queueIds s →
      postTaskDispatch i s = s) ∧
    (∀ (s : EngineState) (i : Nat), (queueIds s).Nodup →
      invCount i (processRafQueue s).events ≤ invCount i s.events + 1) := by
  have hmode2 : ∀ s : EngineState, ¬ (s.currentSchedulingMode ≠ Mode.rAF ∧
      s.currentSchedulingMode ≠ Mode.timeout) →
      s.currentSchedulingMode = Mode.rAF ∨ s.currentSchedulingMode = Mode.timeout := by
    intro s hmode
    by_cases h1 : s.currentSchedulingMode = Mode.rAF
    · exact Or.inl h1
    · by_cases h2 : s.currentSchedulingMode = Mode.timeout
      · exact Or.inr h2
      · exact absurd ⟨h1, h2⟩ hmode
  refine ⟨?_, ?_, ?_, ?_⟩
  · intro s i hnotq
    by_cases hmode : s.currentSchedulingMode ≠ Mode.rAF ∧
        s.currentSchedulingMode ≠ Mode.timeout
    · rw [processRafQueue_noop s hmode]
    · obtain ⟨c1, _, _, _, _, _⟩ := processRafQueue_spec s (hmode2 s hmode)
      unfold invCount
      rw [c1, List.count_append]
      have hz : (cycleInvoked s).count i = 0 := by
        rw [List.count_eq_zero]
        intro hmem
        exact hnotq (cycleInvoked_subset s i hmem)
      omega
  · intro s i hnotq
    have hfn : findTask i s = none := by
      show s.taskQueue.find? (fun u => u.id = i) = none
      rw [List.find?_eq_none]
      intro t ht
      simp only [decide_eq_true_eq]
      intro hti
      exact hnotq (hti ▸ List.mem_map_of_mem _ ht)
    exact executeTaskImmediately_eq_none i s hfn
  · intro s i hnotq
    have hfn : findTask i s = none := by
      show s.taskQueue.find? (fun u => u.id = i) = none
      rw [List.find?_eq_none]
      intro t ht
      simp only [decide_eq_true_eq]
      intro hti
      exact hnotq (hti ▸ List.mem_map_of_mem _ ht)
    exact postTaskDispatch_eq_none i s hfn
  · intro s i hnd
    by_cases hmode : s.currentSchedulingMode ≠ Mode.rAF ∧
        s.currentSchedulingMode ≠ Mode.timeout
    · rw [processRafQueue_noop s hmode]
      omega
    · obtain ⟨c1, _, _, _, _, _⟩ := processRafQueue_spec s (hmode2 s hmode)
      unfold invCount
      rw [c1, List.count_append]
      have ha := cycleInvoked_count s i
      have hb := List.nodup_iff_count_le_one.mp hnd i
      omega

/-- C1 witness: for the unregistered id 7 the cycle, the wrapper and the
cooperative dispatch are all no-ops on the concrete frame-paced state,
and with its distinct registry ids a cycle adds at most one invocation
of id 1. -/
theorem claim_C1_cancel_execution_witness :
    invCount 7 (processRafQueue c5State).events = invCount 7 c5State.events ∧
    executeTaskImmediately 7 c5State = c5State ∧
    postTaskDispatch 7 c5State = c5State ∧
    invCount 1 (processRafQueue c5State).events ≤ invCount 1 c5State.events + 1 := by
  obtain ⟨hA, hB, hC, hD⟩ := claim_C1_cancel_execution
  exact ⟨hA c5State 7 (by decide), hB c5State 7 (by decide),
    hC c5State 7 (by decide), hD c5State 1 (by decide)⟩

/-- C8: a task scheduled with batching=false is armed at schedule time
on a dedicated native timer carrying its coerced delay and its fresh id;
the Execution Cycle's due-task scan admits only batched tasks, so
non-batched tasks are never inspected by it in any state; the postTask
runner refuses a non-batched task and the cooperative dispatch is a
no-op when the registered task is non-batched; and firing the dedicated
timer once its delay has elapsed invokes the still-registered task in
any state, whatever the current mode or visibility. -/
theorem claim_C8_batching_optout :
    (∀ (cb : Cb) (opts : TaskOptionsInput) (s : EngineState),
      opts.batching = some false →
      (scheduleTask cb opts s).1.nativeTimers =
        s.nativeTimers ++ [⟨s.nativeTimerCounter, coerceDelay opts.delay, s.now,
          NativePayload.execTask (s.taskIdCounter + 1)⟩] ∧
      (scheduleTask cb opts s).2 = s.taskIdCounter + 1) ∧
    (∀ s : EngineState, ∀ t ∈ dueTasks s, t.batching = true) ∧
    (∀ (t : ScheduledTask) (s : EngineState), t.batching = false →
      runTaskWithPostTask t s = s) ∧
    (∀ (id : Nat) (s : EngineState) (t : ScheduledTask), findTask id s = some t →
      t.batching = false → postTaskDispatch id s = s) ∧
    (∀ (s : EngineState) (tid i : Nat) (nt : NativeTimer),
      s.nativeTimers.find? (fun u => u.timerId = tid) = some nt →
      nt.payload = NativePayload.execTask i →
      ¬ s.now < nt.armedAt + max 0 nt.delay →
      i ∈ queueIds s →
      invokesOf (fireNative tid s).events = invokesOf s.events ++ [i]) := by
  refine ⟨?_, ?_, ?_, ?_, ?_⟩
  · intro cb opts s hopt
    have hB : opts.batching.getD true = false := by
      rw [hopt]
      rfl
    set task : ScheduledTask :=
      { id := s.taskIdCounter + 1, callback := cb,
        executeAt := s.now + coerceDelay opts.delay, args := []
        priority := opts.priority.getD TaskPriority.userVisible
        batching := opts.batching.getD true
        nativeTimerId := if opts.batching.getD true then none
          else some s.nativeTimerCounter
        postTaskAborted := none } with htask
    set s2 : EngineState := publishCount
      { s with taskIdCounter := s.taskIdCounter + 1, taskQueue := s.taskQueue ++ [task]
               events := s.events ++
                 [Event.insertE (s.taskIdCounter + 1) (s.taskQueue ++ [task]).length] }
      with hs2
    have hsched : scheduleTask cb opts s =
        (if ¬ opts.batching.getD true = true then
          ({ s2 with nativeTimerCounter := s.nativeTimerCounter + 1
                     nativeTimers := s2.nativeTimers ++
                       [⟨s.nativeTimerCounter, coerceDelay opts.delay, s.now,
                         NativePayload.execTask (s.taskIdCounter + 1)⟩] },
            s.taskIdCounter + 1)
        else if s2.currentSchedulingMode = Mode.idle ∧
            0 < (s.taskQueue ++ [task]).length then
          (startAppropriateTicker s2, s.taskIdCounter + 1)
        else if s2.currentSchedulingMode = Mode.postTask then
          (runTaskWithPostTask task s2, s.taskIdCounter + 1)
        else (s2, s.taskIdCounter + 1)) := rfl
    rw [hsched, if_pos (by rw [hB]; simp)]
    exact ⟨rfl, rfl⟩
  · intro s t ht
    rw [dueTasks, List.mem_filter] at ht
    exact (of_decide_eq_true ht.2).1
  · intro t s hb
    unfold runTaskWithPostTask
    rw [if_pos (by simp [hb])]
  · intro id s t hf hb
    refine postTaskDispatch_eq_skip id s t hf ?_
    intro hcontra
    rw [hb] at hcontra
    exact absurd hcontra.1 (by simp)
  · intro s tid i nt hf hp hdue hq
    rw [fireNative_eq_fire tid s nt hf hdue, hp]
    show invokesOf (executeTaskImmediately i (clearNativeTimer tid s)).events = _
    cases hft : findTask i (clearNativeTimer tid s) with
    | none =>
      exfalso
      obtain ⟨t, ht, hid⟩ := List.mem_map.mp hq
      have hft2 : s.taskQueue.find? (fun u => u.id = i) = none := hft
      have := List.find?_eq_none.mp hft2 t ht
      exact this (by simp [hid])
    | some t =>
      rw [executeTaskImmediately_eq_some i _ t hft]
      have hft2 : s.taskQueue.find? (fun u => u.id = i) = some t := hft
      have hpt := List.find?_some hft2
      have hid : t.id = i := of_decide_eq_true hpt
      obtain ⟨i1, _, _⟩ := invokeTask_spec t (clearNativeTimer tid s)
      obtain ⟨_, d2, _, _, _, _⟩ :=
        deleteTask_spec i (invokeTask t (clearNativeTimer tid s))
      rw [invokesOf_publishCount, d2, i1, hid]
      rfl

/-- C8 witness: on the fresh engine a batching=false schedule arms the
dedicated timer ⟨1, 0, 0, execTask 1⟩; the batched due task of the
frame-paced state has batching=true; the postTask runner and the
cooperative dispatch refuse the concrete non-batched task; and firing
its timer at time 40 invokes id 2. -/
theorem claim_C8_batching_optout_witness :
    (scheduleTask nopCb ⟨none, none, some false⟩
        (initEngine noConfig false false)).1.nativeTimers =
      [⟨1, 0, 0, NativePayload.execTask 1⟩] ∧
    (⟨1, nopCb, 0, [], TaskPriority.userVisible, true, none,
        none⟩ : ScheduledTask).batching = true ∧
    runTaskWithPostTask
      ⟨2, nopCb, 30, [], TaskPriority.userVisible, false, some 1, none⟩
      c3State = c3State ∧
    postTaskDispatch 2 c3State = c3State ∧
    invokesOf (fireNative 1 { c3State with now := 40 }).events =
      invokesOf { c3State with now := 40 }.events ++ [2] := by
  obtain ⟨hA, hB, hC, hD, hE⟩ := claim_C8_batching_optout
  refine ⟨?_, ?_, ?_, ?_, ?_⟩
  · rw [(hA nopCb ⟨none, none, some false⟩ (initEngine noConfig false false) rfl).1]
    rfl
  · exact hB c5State ⟨1, nopCb, 0, [], TaskPriority.userVisible, true, none, none⟩
      (by decide)
  · exact hC ⟨2, nopCb, 30, [], TaskPriority.userVisible, false, some 1, none⟩
      c3State rfl
  · exact hD 2 c3State
      ⟨2, nopCb, 30, [], TaskPriority.userVisible, false, some 1, none⟩
      (by decide) rfl
  · exact hE { c3State with now := 40 } 1 2 ⟨1, 30, 0, NativePayload.execTask 2⟩
      (by decide) rfl (by decide) (by decide)

end TSched
